import Mathlib

/-!
Verification of `transcriptToSbv.py` (luav/transcriptToSbv).

Shallow embedding conventions:
* Python `float` values are modeled as rationals (`ℚ`); the decimal literals
  appearing in timestamps are exact in this model.
* An input file is a list of lines; the trailing newline of each line is not
  represented (it is irrelevant: `float` strips whitespace, `split` ignores it,
  and caption lines are stored verbatim either way).
* Writes to the output file are modeled as emitted `Event`s: each event records
  the list of timestamps written on the timing line (joined with `,` in the
  real output) and the caption lines flushed after it.
* Python exceptions (`AssertionError` from `assert`, `ValueError` from
  `float`) are modeled with `Except AdjErr`; output produced before a failure
  is kept (the script does not roll back written lines).
-/

set_option maxHeartbeats 1000000

namespace T2S

/-! ### Character-level helpers (Python string primitives) -/

/-- Split a character list at every occurrence of the separator `c`
(Python `str.split(sep)`: empty chunks are kept, the result is never empty). -/
def splitCh (c : Char) : List Char → List (List Char)
  | [] => [[]]
  | x :: xs =>
    match splitCh c xs with
    | [] => [[]]
    | r :: rs => if x = c then [] :: r :: rs else (x :: r) :: rs

/-- Numeric value of a decimal digit character. -/
def digitVal (c : Char) : ℕ := c.toNat - 48

/-- Value of a decimal digit string, accumulator form. -/
def digitsValFrom (a : ℕ) : List Char → ℕ
  | [] => a
  | c :: cs => digitsValFrom (a * 10 + digitVal c) cs

/-- Value of a decimal digit string. -/
def digitsVal (ds : List Char) : ℕ := digitsValFrom 0 ds

/-- Strip leading and trailing whitespace, as Python `float` does before
parsing its argument. -/
def stripWs (cs : List Char) : List Char :=
  ((cs.dropWhile Char.isWhitespace).reverse.dropWhile Char.isWhitespace).reverse

/-- Unsigned part of Python `float` parsing, restricted to the decimal grammar
`digits [. digits]` exercised by timestamp fields (no exponents / inf / nan,
which never occur in the timestamp format `[[H:]M:]S[.ms]`). -/
def pyUnsigned (cs : List Char) : Option ℚ :=
  match splitCh '.' cs with
  | [i] => if !i.isEmpty && i.all Char.isDigit then some (digitsVal i) else none
  | [i, f] =>
    if (!i.isEmpty || !f.isEmpty) && i.all Char.isDigit && f.all Char.isDigit then
      some ((digitsVal i : ℚ) + (digitsVal f : ℚ) / 10 ^ f.length)
    else none
  | _ => none

/-- Model of Python `float(s)`: strip surrounding whitespace, optional sign,
then a decimal literal; `none` models the `ValueError` raised on malformed
text. -/
def pyFloat (cs : List Char) : Option ℚ :=
  let t := stripWs cs
  if t.head? = some '-' then (pyUnsigned t.tail).map (fun q => -q)
  else if t.head? = some '+' then pyUnsigned t.tail
  else pyUnsigned t

/-! ### TimestampCodec -/

/-- Loop of `timestamp`: `ts += float(t) * mul; mul *= 60` over the reversed
colon-separated components. -/
def tsGo : List (List Char) → ℚ → ℚ → Option ℚ
  | [], ts, _ => some ts
  | t :: rest, ts, mul =>
    match pyFloat t with
    | none => none
    | some v => tsGo rest (ts + v * mul) (mul * 60)

/-- `timestamp(timeStr)` from the source: parse `[[H:]M:]ss.ms`
(any number of colon-separated components). -/
def timestamp (timeStr : String) : Option ℚ :=
  tsGo (splitCh ':' timeStr.data).reverse 0 1

/-- Decimal digit character for a value `< 10`. -/
def digitChar : ℕ → Char
  | 0 => '0' | 1 => '1' | 2 => '2' | 3 => '3' | 4 => '4'
  | 5 => '5' | 6 => '6' | 7 => '7' | 8 => '8' | _ => '9'

/-- Decimal rendering loop (fuel-based so that it reduces in the kernel). -/
def natToDigitsGo : ℕ → ℕ → List Char → List Char
  | 0, _, acc => acc
  | _ + 1, 0, acc => acc
  | fuel + 1, n + 1, acc => natToDigitsGo fuel ((n + 1) / 10) (digitChar ((n + 1) % 10) :: acc)

/-- Decimal rendering of a natural number, as Python `f'{n}'`. -/
def natToDigits (n : ℕ) : List Char :=
  if n = 0 then ['0'] else natToDigitsGo (n + 1) n []

/-- Python format spec `0>2`: pad on the left with `0` to width 2. -/
def pad2 (ds : List Char) : List Char := List.replicate (2 - ds.length) '0' ++ ds

/-- Python format spec `0<3`: pad on the RIGHT with `0` to width 3
(the quirk of the source's millisecond field). -/
def padR3 (ds : List Char) : List Char := ds ++ List.replicate (3 - ds.length) '0'

/-- `timestampStr(time)` from the source: `assert time >= 0` (modeled as
`none`); `ss = int(time)`; `ms = int((time - ss) * 1000)`;
`mm, ss = divmod(ss, 60)`; `h, mm = divmod(mm, 60)`; rendered as
`f'{h}:{mm:0>2}:{ss:0>2}.{ms:0<3}'`. -/
def timestampStr (time : ℚ) : Option String :=
  if time < 0 then none
  else
    let ss : ℕ := (⌊time⌋).toNat
    let ms : ℕ := (⌊(time - (ss : ℚ)) * 1000⌋).toNat
    let mm : ℕ := ss / 60
    let s2 : ℕ := ss % 60
    let h : ℕ := mm / 60
    let m2 : ℕ := mm % 60
    some (String.mk
      (natToDigits h ++ ':' :: pad2 (natToDigits m2) ++ ':' :: pad2 (natToDigits s2)
        ++ '.' :: padR3 (natToDigits ms)))

/-- The millisecond field `int((q - int(q)) * 1000)` that `timestampStr`
computes for a non-negative time `q`. -/
def msOf (q : ℚ) : ℕ := (⌊(q - ((⌊q⌋).toNat : ℚ)) * 1000⌋).toNat

/-! ### CaptionRealigner: data model -/

/-- One flush to the output file: the timestamps written on the timing line
(joined with `,` by the source) followed by the caption lines written after
it. -/
structure Event where
  times : List ℚ
  captions : List String
deriving DecidableEq

/-- Python exceptions raised by `adjustSbv`:
the three `assert` statements and `float`'s `ValueError`, plus
`timestampStr`'s non-negativity assertion. -/
inductive AdjErr
  | assertTimesEmpty (times : List ℚ)
  | assertDualPair (times : List ℚ)
  | assertSingleOne (times : List ℚ)
  | badFloat (s : String)
  | negTime (t : ℚ)
deriving DecidableEq

/-- The local state of `adjustSbv`: `isHdr`, `isSbv`, the `ts` variable
(target start time, overwritten with the offset at the first metadata line),
`times` and `captions`. -/
structure AdjState where
  isHdr : Bool
  isSbv : Option Bool
  ts : Option ℚ
  times : List ℚ
  captions : List String
deriving DecidableEq

/-- State at function entry, for a given optional target start time. -/
def initState (ts : Option ℚ) : AdjState :=
  { isHdr := true, isSbv := none, ts := ts, times := [], captions := [] }

/-! ### CaptionRealigner: line processing -/

/-- `ln.startswith(hdrMark)` with `hdrMark = '#'`. -/
def startsHash (s : String) : Bool :=
  match s.data with
  | c :: _ => c == '#'
  | [] => false

/-- `toks[0][0].isdigit()` for a token. -/
def headDigit (s : String) : Bool :=
  match s.data with
  | c :: _ => c.isDigit
  | [] => false

/-- `ln.split(maxsplit=1)`: drop leading whitespace; first token up to the
next whitespace run; the remainder (with that run's leading whitespace
dropped) is the second token if non-empty. -/
def pySplitMax1 (s : String) : List String :=
  match s.data.dropWhile Char.isWhitespace with
  | [] => []
  | c :: cs =>
    let tok := (c :: cs).takeWhile (fun ch => !ch.isWhitespace)
    let rest := ((c :: cs).dropWhile (fun ch => !ch.isWhitespace)).dropWhile Char.isWhitespace
    if rest.isEmpty then [String.mk tok] else [String.mk tok, String.mk rest]

/-- `ln.split(timeSep)` with `timeSep = ','`. -/
def splitComma (s : String) : List String :=
  (splitCh ',' s.data).map String.mk

/-- `[timestamp(s) for s in fields]`: the comprehension evaluates left to
right and raises at the first malformed field. -/
def parseTimes : List String → Except AdjErr (List ℚ)
  | [] => .ok []
  | s :: rest =>
    match timestamp s with
    | none => .error (.badFloat s)
    | some v =>
      match parseTimes rest with
      | .error e => .error e
      | .ok vs => .ok (v :: vs)

/-- `timeSep.join(timestampStr(t) for t in times)` asserts `t >= 0` for every
element (the generator is fully evaluated by `join` before anything is
written); only the success/failure of that check matters for the model. -/
def checkNonneg : List ℚ → Except AdjErr Unit
  | [] => .ok ()
  | t :: ts => if t < 0 then .error (.negTime t) else checkNonneg ts

/-- Metadata-line processing (source lines 111-131): identify / use the
encoding, parse the timestamps, update `ts` (offset), `isSbv` and `times`.
Returns the updated state and `timesNew` (`none` models Python's `None` in
the raw-format branch, where `timesNew` is left unset). -/
def metaStep (st : AdjState) (ln : String) : Except AdjErr (AdjState × Option (List ℚ)) :=
  match st.isSbv with
  | some false =>
    -- raw format: a single chained timestamp per metadata line
    match st.times with
    | [t0] =>
      match timestamp ln with
      | none => .error (.badFloat ln)
      | some v => .ok ({ st with times := [t0, v - st.ts.getD 0] }, none)
    | ts => .error (.assertSingleOne ts)
  | _ =>
    -- `isSbv is None or isSbv`: parse `ln.split(',')`
    match parseTimes (splitComma ln) with
    | .error e => .error e
    | .ok timesNew =>
      match st.isSbv with
      | some _ =>
        -- SBV format already identified: adjust the aggregated pair
        if st.times.length = 2 then
          .ok ({ st with times := match st.ts with
                                  | some t => st.times.map (fun x => x - t)
                                  | none => st.times }, some timesNew)
        else .error (.assertDualPair st.times)
      | none =>
        -- first metadata line: identify the format
        if !st.times.isEmpty then .error (.assertTimesEmpty st.times)
        else
          match timesNew with
          | [] => .error (.badFloat ln)  -- unreachable: `split` never yields an empty list
          | v :: _ =>
            let isSbv2 : Bool := timesNew.length = 2
            let ts' := match st.ts with
                       | some t => some (v - t)
                       | none => none
            let times' := if isSbv2 then st.times
                          else st.times ++ [v - ts'.getD 0]
            .ok ({ st with isSbv := some isSbv2, ts := ts', times := times' }, some timesNew)

/-- Processing of one input line (the body of the `for ln in finp` loop). -/
def step (st0 : AdjState) (ln : String) : Except AdjErr (AdjState × List Event) :=
  -- 1. omit the header comments
  if st0.isHdr && startsHash ln then .ok (st0, [])
  else
    let st := { st0 with isHdr := false }
    -- 2. process subtitles; omit empty lines; aggregate subtitle text
    match pySplitMax1 ln with
    | [] => .ok (st, [])
    | tok :: rest =>
      if !rest.isEmpty || !headDigit tok then
        .ok ({ st with captions := st.captions ++ [ln] }, [])
      else
        -- 3. fetch original timestamps
        match metaStep st ln with
        | .error e => .error e
        | .ok (st1, timesNew) =>
          if st1.captions.isEmpty then .ok (st1, [])
          else
            -- output timestamps and the aggregated captions, update `times`
            match checkNonneg st1.times with
            | .error e => .error e
            | .ok _ =>
              let times2 := match st1.isSbv, timesNew with
                            | some true, some tn => tn
                            | _, _ => st1.times.tail   -- times.pop(0)
              .ok ({ st1 with times := times2, captions := [] },
                   [{ times := st1.times, captions := st1.captions }])

/-- Run the loop over the remaining lines, keeping the events emitted before
a possible failure (written output is not rolled back). -/
def runLines : AdjState → List String → AdjState × List Event × Option AdjErr
  | st, [] => (st, [], none)
  | st, ln :: rest =>
    match step st ln with
    | .error e => (st, [], some e)
    | .ok (st1, evs) =>
      match runLines st1 rest with
      | (st2, evs2, err) => (st2, evs ++ evs2, err)

/-- End-of-stream finalization (source lines 144-149): output the remaining
captions with leading timestamps, synthesizing `times[0] + 5` when a single
timestamp is pending. -/
def finish (st : AdjState) : Except AdjErr (List Event) :=
  if st.captions.isEmpty then .ok []
  else
    let times := match st.times with
                 | [t] => [t, t + 5]   -- last caption let lasts 5 sec
                 | ts => ts
    match checkNonneg times with
    | .error e => .error e
    | .ok _ => .ok [{ times := times, captions := st.captions }]

/-- `adjustSbv(finp, fout, ts)`: the whole run on an input line list; returns
the emitted events and the failure, if any. -/
def adjustSbv (lines : List String) (ts : Option ℚ) : List Event × Option AdjErr :=
  match runLines (initState ts) lines with
  | (_, evs, some e) => (evs, some e)
  | (st, evs, none) =>
    match finish st with
    | .error e => (evs, some e)
    | .ok evs2 => (evs ++ evs2, none)

/-! ### Derived notions used by the claims -/

/-- A line that `adjustSbv` treats as metadata in any non-header position:
exactly one whitespace token, and it starts with a digit. -/
def metaShape (ln : String) : Bool :=
  match pySplitMax1 ln with
  | [t] => headDigit t
  | _ => false

/-- A non-blank line that `adjustSbv` buffers as caption text: two or more
whitespace tokens, or a first token not starting with a digit. -/
def textShape (ln : String) : Bool :=
  match pySplitMax1 ln with
  | [] => false
  | tok :: rest => !rest.isEmpty || !headDigit tok

/-- The start/end pair of an event that is a well-formed caption record
(exactly two timestamps on its timing line). -/
def recTimes (ev : Event) : Option (ℚ × ℚ) :=
  match ev.times with
  | [a, b] => some (a, b)
  | _ => none

/-- The caption records (start, end) among a list of emitted events. -/
def recs (evs : List Event) : List (ℚ × ℚ) := evs.filterMap recTimes

/-- Every record's end equals the next record's start. -/
def chainedRecs : List (ℚ × ℚ) → Prop
  | [] => True
  | [_] => True
  | p :: q :: rest => p.2 = q.1 ∧ chainedRecs (q :: rest)

/-- The update `ts = timesNew[0] - ts` performed at the first metadata line
(only when a target start time was supplied). -/
def updTs : Option ℚ → ℚ → Option ℚ
  | some t, v => some (v - t)
  | none, _ => none

/-- The in-place adjustment `times[i] -= ts` performed at subsequent SBV
metadata lines (only when a target start time was supplied). -/
def adjTimes : Option ℚ → List ℚ → List ℚ
  | some t, l => l.map (fun x => x - t)
  | none, l => l

/-- Invariant of the Single (raw-format) mode: the records emitted so far
chain, and the head of the pending `times` list is the end of the last
emitted record; an empty pending list can only occur before any record. -/
def SingleInv (st : AdjState) (rs : List (ℚ × ℚ)) : Prop :=
  chainedRecs rs ∧
  (st.times = [] → rs = []) ∧
  (∀ x l p, st.times = x :: l → rs.getLast? = some p → p.2 = x)

/-- Run invariant from the initial state: either the encoding is still
undetermined (nothing pending, nothing emitted as a record), or Single mode
holds its invariant, or the mode is Dual. -/
def RunInv (st : AdjState) (rs : List (ℚ × ℚ)) : Prop :=
  (st.isSbv = none ∧ st.times = [] ∧ rs = [])
  ∨ (st.isSbv = some false ∧ SingleInv st rs)
  ∨ st.isSbv = some true

/-! ### Branch lemmas for the state machine -/

theorem metaStep_single (st : AdjState) (ln : String) (t0 v : ℚ)
    (hm : st.isSbv = some false) (ht : st.times = [t0])
    (hv : timestamp ln = some v) :
    metaStep st ln = .ok ({ st with times := [t0, v - st.ts.getD 0] }, none) := by
  simp [metaStep, hm, ht, hv]

theorem metaStep_single_assert (st : AdjState) (ln : String)
    (hm : st.isSbv = some false) (ht : st.times.length ≠ 1) :
    metaStep st ln = .error (.assertSingleOne st.times) := by
  rcases h : st.times with _ | ⟨a, _ | ⟨b, l⟩⟩ <;>
    simp_all [metaStep, hm]

theorem metaStep_first_dual (st : AdjState) (ln : String) (a b : ℚ)
    (hm : st.isSbv = none) (ht : st.times = [])
    (hp : parseTimes (splitComma ln) = .ok [a, b]) :
    metaStep st ln =
      .ok ({ st with isSbv := some true, ts := updTs st.ts a, times := [] }, some [a, b]) := by
  rcases hts : st.ts with _ | t <;> simp [metaStep, hm, ht, hp, updTs, hts]

theorem metaStep_first_single (st : AdjState) (ln : String) (v : ℚ) (vs : List ℚ)
    (hm : st.isSbv = none) (ht : st.times = [])
    (hp : parseTimes (splitComma ln) = .ok (v :: vs)) (hlen : vs.length ≠ 1) :
    metaStep st ln =
      .ok ({ st with isSbv := some false, ts := updTs st.ts v,
                     times := [v - (updTs st.ts v).getD 0] }, some (v :: vs)) := by
  rcases hts : st.ts with _ | t <;>
    simp [metaStep, hm, ht, hp, updTs, hts, Nat.succ_ne_succ, hlen]

theorem metaStep_dual (st : AdjState) (ln : String) (tn : List ℚ)
    (hm : st.isSbv = some true) (ht : st.times.length = 2)
    (hp : parseTimes (splitComma ln) = .ok tn) :
    metaStep st ln = .ok ({ st with times := adjTimes st.ts st.times }, some tn) := by
  rcases hts : st.ts with _ | t <;> simp [metaStep, hm, ht, hp, adjTimes, hts]

theorem metaStep_dual_assert (st : AdjState) (ln : String) (tn : List ℚ)
    (hm : st.isSbv = some true) (ht : st.times.length ≠ 2)
    (hp : parseTimes (splitComma ln) = .ok tn) :
    metaStep st ln = .error (.assertDualPair st.times) := by
  simp [metaStep, hm, ht, hp]

theorem step_header (st : AdjState) (ln : String)
    (h1 : st.isHdr = true) (h2 : startsHash ln = true) :
    step st ln = .ok (st, []) := by
  simp [step, h1, h2]

theorem step_blank (st : AdjState) (ln : String)
    (hh : (st.isHdr && startsHash ln) = false) (h2 : pySplitMax1 ln = []) :
    step st ln = .ok ({ st with isHdr := false }, []) := by
  simp [step, hh, h2]

theorem step_text (st : AdjState) (ln tok : String) (rest : List String)
    (hh : (st.isHdr && startsHash ln) = false)
    (hs : pySplitMax1 ln = tok :: rest)
    (hc : (!rest.isEmpty || !headDigit tok) = true) :
    step st ln = .ok ({ st with isHdr := false, captions := st.captions ++ [ln] }, []) := by
  simp [step, hh, hs, hc]

theorem step_meta_err (st : AdjState) (ln tok : String) (e : AdjErr)
    (hh : (st.isHdr && startsHash ln) = false)
    (hs : pySplitMax1 ln = [tok]) (hd : headDigit tok = true)
    (hm : metaStep { st with isHdr := false } ln = .error e) :
    step st ln = .error e := by
  simp [step, hh, hs, hd, hm]

theorem step_meta_noemit (st st1 : AdjState) (ln tok : String) (tn : Option (List ℚ))
    (hh : (st.isHdr && startsHash ln) = false)
    (hs : pySplitMax1 ln = [tok]) (hd : headDigit tok = true)
    (hm : metaStep { st with isHdr := false } ln = .ok (st1, tn))
    (hc : st1.captions = []) :
    step st ln = .ok (st1, []) := by
  simp [step, hh, hs, hd, hm, hc]

theorem step_meta_emit_dual (st st1 : AdjState) (ln tok : String) (tn : List ℚ)
    (hh : (st.isHdr && startsHash ln) = false)
    (hs : pySplitMax1 ln = [tok]) (hd : headDigit tok = true)
    (hm : metaStep { st with isHdr := false } ln = .ok (st1, some tn))
    (hc : st1.captions ≠ []) (hb : st1.isSbv = some true)
    (hn : checkNonneg st1.times = .ok ()) :
    step st ln = .ok ({ st1 with times := tn, captions := [] },
                      [{ times := st1.times, captions := st1.captions }]) := by
  simp [step, hh, hs, hd, hm, hc, hb, hn]

theorem step_meta_emit_pop (st st1 : AdjState) (ln tok : String) (tn : Option (List ℚ))
    (hh : (st.isHdr && startsHash ln) = false)
    (hs : pySplitMax1 ln = [tok]) (hd : headDigit tok = true)
    (hm : metaStep { st with isHdr := false } ln = .ok (st1, tn))
    (hc : st1.captions ≠ []) (hb : st1.isSbv = some false)
    (hn : checkNonneg st1.times = .ok ()) :
    step st ln = .ok ({ st1 with times := st1.times.tail, captions := [] },
                      [{ times := st1.times, captions := st1.captions }]) := by
  rcases tn with _ | tn <;> simp [step, hh, hs, hd, hm, hc, hb, hn]

theorem runLines_cons_ok (st st1 : AdjState) (ln : String) (rest : List String)
    (evs : List Event) (hstep : step st ln = .ok (st1, evs)) :
    runLines st (ln :: rest) =
      ((runLines st1 rest).1, evs ++ (runLines st1 rest).2.1, (runLines st1 rest).2.2) := by
  simp [runLines, hstep]

theorem runLines_cons_err (st : AdjState) (ln : String) (rest : List String)
    (e : AdjErr) (hstep : step st ln = .error e) :
    runLines st (ln :: rest) = (st, [], some e) := by
  simp [runLines, hstep]

theorem runLines_append (st : AdjState) (xs ys : List String) :
    runLines st (xs ++ ys) =
      (match runLines st xs with
       | (st1, evs, some e) => (st1, evs, some e)
       | (st1, evs, none) =>
         ((runLines st1 ys).1, evs ++ (runLines st1 ys).2.1, (runLines st1 ys).2.2)) := by
  induction xs generalizing st with
  | nil => simp [runLines]
  | cons ln rest ih =>
    rcases hstep : step st ln with e | ⟨st1, evs⟩
    · simp [runLines, hstep]
    · rcases hrun : runLines st1 rest with ⟨st2, evs2, err⟩
      rcases err with _ | e <;>
        simp [runLines, hstep, ih, hrun, List.append_assoc]

theorem finish_noCaptions (st : AdjState) (hc : st.captions = []) :
    finish st = .ok [] := by
  simp [finish, hc]

theorem finish_pair (st : AdjState) (a b : ℚ) (hc : st.captions ≠ [])
    (ht : st.times = [a, b]) (hn : checkNonneg [a, b] = .ok ()) :
    finish st = .ok [{ times := [a, b], captions := st.captions }] := by
  simp [finish, hc, ht, hn]

theorem finish_synth (st : AdjState) (a : ℚ) (hc : st.captions ≠ [])
    (ht : st.times = [a]) (hn : checkNonneg [a, a + 5] = .ok ()) :
    finish st = .ok [{ times := [a, a + 5], captions := st.captions }] := by
  simp [finish, hc, ht, hn]

theorem finish_other (st : AdjState) (hc : st.captions ≠ [])
    (ht : ∀ t : ℚ, st.times ≠ [t]) (hn : checkNonneg st.times = .ok ()) :
    finish st = .ok [{ times := st.times, captions := st.captions }] := by
  rcases h : st.times with _ | ⟨a, _ | ⟨b, l⟩⟩ <;> simp_all [finish, hc, hn]

theorem adjustSbv_run_err (lines : List String) (ts : Option ℚ) (st : AdjState)
    (evs : List Event) (e : AdjErr)
    (hrun : runLines (initState ts) lines = (st, evs, some e)) :
    adjustSbv lines ts = (evs, some e) := by
  simp [adjustSbv, hrun]

theorem adjustSbv_run_ok (lines : List String) (ts : Option ℚ) (st : AdjState)
    (evs evs2 : List Event)
    (hrun : runLines (initState ts) lines = (st, evs, none))
    (hfin : finish st = .ok evs2) :
    adjustSbv lines ts = (evs ++ evs2, none) := by
  simp [adjustSbv, hrun, hfin]

theorem checkNonneg_ok (l : List ℚ) (h : ∀ t ∈ l, 0 ≤ t) : checkNonneg l = .ok () := by
  induction l with
  | nil => rfl
  | cons t ts ih =>
    have h0 : ¬ t < 0 := not_lt.mpr (h t (List.mem_cons_self t ts))
    simp [checkNonneg, h0]
    exact ih fun x hx => h x (List.mem_cons_of_mem t hx)

/-! ### Parsing lemmas for the timestamp codec -/

theorem digit_not_ws (c : Char) (h : c.isDigit = true) : c.isWhitespace = false := by
  rcases hw : c.isWhitespace with _ | _
  · rfl
  · exfalso
    have hc : ((c = ' ' ∨ c = '\t') ∨ c = '\x0d') ∨ c = '\n' := by
      simpa [Char.isWhitespace] using hw
    rcases hc with ((rfl | rfl) | rfl) | rfl <;> exact absurd h (by decide)

theorem digit_ne (c d : Char) (h : c.isDigit = true) (hd : d.isDigit = false) : c ≠ d := by
  intro he; rw [he] at h; rw [h] at hd; exact absurd hd (by decide)

theorem dropWhile_id (p : Char → Bool) (l : List Char) (h : ∀ c ∈ l, p c = false) :
    l.dropWhile p = l := by
  cases l with
  | nil => rfl
  | cons c cs => simp [List.dropWhile_cons, h c (List.mem_cons_self c cs)]

theorem stripWs_eq (l : List Char) (h : ∀ c ∈ l, c.isWhitespace = false) :
    stripWs l = l := by
  unfold stripWs
  rw [dropWhile_id _ _ h, dropWhile_id, List.reverse_reverse]
  intro c hc
  exact h c (List.mem_reverse.mp hc)

theorem splitCh_sepFree (c : Char) (l : List Char) (h : ∀ x ∈ l, x ≠ c) :
    splitCh c l = [l] := by
  induction l with
  | nil => rfl
  | cons x xs ih =>
    have hx : x ≠ c := h x (List.mem_cons_self x xs)
    rw [splitCh, ih fun y hy => h y (List.mem_cons_of_mem x hy)]
    simp [hx]

theorem splitCh_never_nil (c : Char) (l : List Char) : splitCh c l ≠ [] := by
  cases l with
  | nil => simp [splitCh]
  | cons x xs =>
    rw [splitCh]
    rcases hs : splitCh c xs with _ | ⟨p, ps⟩ <;> by_cases hx : x = c <;> simp [hx]

theorem splitCh_append (c : Char) (l r : List Char) (h : ∀ x ∈ l, x ≠ c) :
    splitCh c (l ++ c :: r) = l :: splitCh c r := by
  induction l with
  | nil =>
    rw [List.nil_append, splitCh]
    rcases hs : splitCh c r with _ | ⟨p, ps⟩
    · exact absurd hs (splitCh_never_nil c r)
    · simp
  | cons x xs ih =>
    have hx : x ≠ c := h x (List.mem_cons_self x xs)
    rw [List.cons_append, splitCh, ih fun y hy => h y (List.mem_cons_of_mem x hy)]
    simp [hx]

theorem pyUnsigned_digits (ds : List Char) (h1 : ds ≠ [])
    (h2 : ds.all Char.isDigit = true) :
    pyUnsigned ds = some ((digitsVal ds : ℚ)) := by
  have hsep : ∀ x ∈ ds, x ≠ '.' := by
    intro x hx
    exact digit_ne x '.' (by simpa using List.all_eq_true.mp h2 x hx) (by decide)
  rw [pyUnsigned, splitCh_sepFree '.' ds hsep]
  simp [h1, h2]

theorem pyFloat_digits (ds : List Char) (h1 : ds ≠ [])
    (h2 : ds.all Char.isDigit = true) :
    pyFloat ds = some ((digitsVal ds : ℚ)) := by
  have hws : ∀ c ∈ ds, c.isWhitespace = false := by
    intro c hc
    exact digit_not_ws c (by simpa using List.all_eq_true.mp h2 c hc)
  rw [pyFloat]
  simp only [stripWs_eq ds hws]
  rcases ds with _ | ⟨c, cs⟩
  · exact absurd rfl h1
  · have hcd : c.isDigit = true := by simpa using List.all_eq_true.mp h2 c (List.mem_cons_self c cs)
    have hm : c ≠ '-' := digit_ne c '-' hcd (by decide)
    have hp : c ≠ '+' := digit_ne c '+' hcd (by decide)
    simp only [List.head?_cons]
    rw [if_neg (by simpa using hm), if_neg (by simpa using hp)]
    exact pyUnsigned_digits _ h1 h2

theorem pyFloat_dot (i f : List Char) (hi : i ≠ [])
    (hdi : i.all Char.isDigit = true) (hdf : f.all Char.isDigit = true) :
    pyFloat (i ++ '.' :: f) = some ((digitsVal i : ℚ) + (digitsVal f : ℚ) / 10 ^ f.length) := by
  have hall : ∀ c ∈ i ++ '.' :: f, c.isWhitespace = false := by
    intro c hc
    rcases List.mem_append.mp hc with hc | hc
    · exact digit_not_ws c (by simpa using List.all_eq_true.mp hdi c hc)
    · rcases List.mem_cons.mp hc with rfl | hc
      · decide
      · exact digit_not_ws c (by simpa using List.all_eq_true.mp hdf c hc)
  have hsepi : ∀ x ∈ i, x ≠ '.' := by
    intro x hx
    exact digit_ne x '.' (by simpa using List.all_eq_true.mp hdi x hx) (by decide)
  have hsepf : ∀ x ∈ f, x ≠ '.' := by
    intro x hx
    exact digit_ne x '.' (by simpa using List.all_eq_true.mp hdf x hx) (by decide)
  rw [pyFloat]
  simp only [stripWs_eq _ hall]
  rcases i with _ | ⟨c, cs⟩
  · exact absurd rfl hi
  · have hcd : c.isDigit = true := by
      simpa using List.all_eq_true.mp hdi c (List.mem_cons_self c cs)
    have hm : c ≠ '-' := digit_ne c '-' hcd (by decide)
    have hp : c ≠ '+' := digit_ne c '+' hcd (by decide)
    simp only [List.cons_append, List.head?_cons]
    rw [if_neg (by simpa using hm), if_neg (by simpa using hp)]
    rw [pyUnsigned, ← List.cons_append, splitCh_append '.' (c :: cs) f hsepi,
        splitCh_sepFree '.' f hsepf]
    simp [hdi, hdf]

/-- Evaluation scheme for a one-component timestamp text. -/
theorem timestamp1 (s : String) (A : List Char) (vA : ℚ)
    (hs : splitCh ':' s.data = [A]) (hA : pyFloat A = some vA) :
    timestamp s = some (0 + vA * 1) := by
  rw [timestamp, hs]
  simp [tsGo, hA]

/-- Evaluation scheme for a two-component timestamp text. -/
theorem timestamp2 (s : String) (A B : List Char) (vA vB : ℚ)
    (hs : splitCh ':' s.data = [A, B])
    (hA : pyFloat A = some vA) (hB : pyFloat B = some vB) :
    timestamp s = some (0 + vB * 1 + vA * (1 * 60)) := by
  rw [timestamp, hs]
  simp [tsGo, hA, hB]

/-- Evaluation scheme for a three-component timestamp text. -/
theorem timestamp3 (s : String) (A B C : List Char) (vA vB vC : ℚ)
    (hs : splitCh ':' s.data = [A, B, C])
    (hA : pyFloat A = some vA) (hB : pyFloat B = some vB) (hC : pyFloat C = some vC) :
    timestamp s = some (0 + vC * 1 + vB * (1 * 60) + vA * (1 * 60 * 60)) := by
  rw [timestamp, hs]
  simp [tsGo, hA, hB, hC]

/-! ### Concrete timestamp values used by the scenarios -/

theorem tsv_10_000 : timestamp "0:00:10.000" = some 10 := by
  rw [timestamp3 "0:00:10.000" ['0'] ['0','0'] (['1','0'] ++ '.' :: ['0','0','0']) _ _ _
      (by decide) (pyFloat_digits _ (by decide) (by decide))
      (pyFloat_digits _ (by decide) (by decide))
      (pyFloat_dot ['1','0'] ['0','0','0'] (by decide) (by decide) (by decide))]
  norm_num [(by decide : digitsVal ['0'] = 0), (by decide : digitsVal ['0','0'] = 0),
    (by decide : digitsVal ['1','0'] = 10), (by decide : digitsVal ['0','0','0'] = 0)]

theorem tsv_12_000 : timestamp "0:00:12.000" = some 12 := by
  rw [timestamp3 "0:00:12.000" ['0'] ['0','0'] (['1','2'] ++ '.' :: ['0','0','0']) _ _ _
      (by decide) (pyFloat_digits _ (by decide) (by decide))
      (pyFloat_digits _ (by decide) (by decide))
      (pyFloat_dot ['1','2'] ['0','0','0'] (by decide) (by decide) (by decide))]
  norm_num [(by decide : digitsVal ['0'] = 0), (by decide : digitsVal ['0','0'] = 0),
    (by decide : digitsVal ['1','2'] = 12), (by decide : digitsVal ['0','0','0'] = 0)]

theorem tsv_15_000 : timestamp "0:00:15.000" = some 15 := by
  rw [timestamp3 "0:00:15.000" ['0'] ['0','0'] (['1','5'] ++ '.' :: ['0','0','0']) _ _ _
      (by decide) (pyFloat_digits _ (by decide) (by decide))
      (pyFloat_digits _ (by decide) (by decide))
      (pyFloat_dot ['1','5'] ['0','0','0'] (by decide) (by decide) (by decide))]
  norm_num [(by decide : digitsVal ['0'] = 0), (by decide : digitsVal ['0','0'] = 0),
    (by decide : digitsVal ['1','5'] = 15), (by decide : digitsVal ['0','0','0'] = 0)]

theorem tsv_18_000 : timestamp "0:00:18.000" = some 18 := by
  rw [timestamp3 "0:00:18.000" ['0'] ['0','0'] (['1','8'] ++ '.' :: ['0','0','0']) _ _ _
      (by decide) (pyFloat_digits _ (by decide) (by decide))
      (pyFloat_digits _ (by decide) (by decide))
      (pyFloat_dot ['1','8'] ['0','0','0'] (by decide) (by decide) (by decide))]
  norm_num [(by decide : digitsVal ['0'] = 0), (by decide : digitsVal ['0','0'] = 0),
    (by decide : digitsVal ['1','8'] = 18), (by decide : digitsVal ['0','0','0'] = 0)]

theorem tsv_0_00 : timestamp "0:00" = some 0 := by
  rw [timestamp2 "0:00" ['0'] ['0','0'] _ _
      (by decide) (pyFloat_digits _ (by decide) (by decide))
      (pyFloat_digits _ (by decide) (by decide))]
  norm_num [(by decide : digitsVal ['0'] = 0), (by decide : digitsVal ['0','0'] = 0)]

theorem tsv_0_01 : timestamp "0:01" = some 1 := by
  rw [timestamp2 "0:01" ['0'] ['0','1'] _ _
      (by decide) (pyFloat_digits _ (by decide) (by decide))
      (pyFloat_digits _ (by decide) (by decide))]
  norm_num [(by decide : digitsVal ['0'] = 0), (by decide : digitsVal ['0','1'] = 1)]

theorem tsv_0_05 : timestamp "0:05" = some 5 := by
  rw [timestamp2 "0:05" ['0'] ['0','5'] _ _
      (by decide) (pyFloat_digits _ (by decide) (by decide))
      (pyFloat_digits _ (by decide) (by decide))]
  norm_num [(by decide : digitsVal ['0'] = 0), (by decide : digitsVal ['0','5'] = 5)]

theorem tsv_05 : timestamp "0:00:05" = some 5 := by
  rw [timestamp3 "0:00:05" ['0'] ['0','0'] ['0','5'] _ _ _
      (by decide) (pyFloat_digits _ (by decide) (by decide))
      (pyFloat_digits _ (by decide) (by decide)) (pyFloat_digits _ (by decide) (by decide))]
  norm_num [(by decide : digitsVal ['0'] = 0), (by decide : digitsVal ['0','0'] = 0),
    (by decide : digitsVal ['0','5'] = 5)]

theorem tsv_03 : timestamp "0:00:03" = some 3 := by
  rw [timestamp3 "0:00:03" ['0'] ['0','0'] ['0','3'] _ _ _
      (by decide) (pyFloat_digits _ (by decide) (by decide))
      (pyFloat_digits _ (by decide) (by decide)) (pyFloat_digits _ (by decide) (by decide))]
  norm_num [(by decide : digitsVal ['0'] = 0), (by decide : digitsVal ['0','0'] = 0),
    (by decide : digitsVal ['0','3'] = 3)]

theorem tsv_07 : timestamp "0:00:07" = some 7 := by
  rw [timestamp3 "0:00:07" ['0'] ['0','0'] ['0','7'] _ _ _
      (by decide) (pyFloat_digits _ (by decide) (by decide))
      (pyFloat_digits _ (by decide) (by decide)) (pyFloat_digits _ (by decide) (by decide))]
  norm_num [(by decide : digitsVal ['0'] = 0), (by decide : digitsVal ['0','0'] = 0),
    (by decide : digitsVal ['0','7'] = 7)]

theorem tsv_04 : timestamp "0:00:04" = some 4 := by
  rw [timestamp3 "0:00:04" ['0'] ['0','0'] ['0','4'] _ _ _
      (by decide) (pyFloat_digits _ (by decide) (by decide))
      (pyFloat_digits _ (by decide) (by decide)) (pyFloat_digits _ (by decide) (by decide))]
  norm_num [(by decide : digitsVal ['0'] = 0), (by decide : digitsVal ['0','0'] = 0),
    (by decide : digitsVal ['0','4'] = 4)]

theorem tsv_10 : timestamp "0:00:10" = some 10 := by
  rw [timestamp3 "0:00:10" ['0'] ['0','0'] ['1','0'] _ _ _
      (by decide) (pyFloat_digits _ (by decide) (by decide))
      (pyFloat_digits _ (by decide) (by decide)) (pyFloat_digits _ (by decide) (by decide))]
  norm_num [(by decide : digitsVal ['0'] = 0), (by decide : digitsVal ['0','0'] = 0),
    (by decide : digitsVal ['1','0'] = 10)]

theorem tsv_12 : timestamp "0:00:12" = some 12 := by
  rw [timestamp3 "0:00:12" ['0'] ['0','0'] ['1','2'] _ _ _
      (by decide) (pyFloat_digits _ (by decide) (by decide))
      (pyFloat_digits _ (by decide) (by decide)) (pyFloat_digits _ (by decide) (by decide))]
  norm_num [(by decide : digitsVal ['0'] = 0), (by decide : digitsVal ['0','0'] = 0),
    (by decide : digitsVal ['1','2'] = 12)]

theorem tsv_15 : timestamp "0:00:15" = some 15 := by
  rw [timestamp3 "0:00:15" ['0'] ['0','0'] ['1','5'] _ _ _
      (by decide) (pyFloat_digits _ (by decide) (by decide))
      (pyFloat_digits _ (by decide) (by decide)) (pyFloat_digits _ (by decide) (by decide))]
  norm_num [(by decide : digitsVal ['0'] = 0), (by decide : digitsVal ['0','0'] = 0),
    (by decide : digitsVal ['1','5'] = 15)]

theorem tsv_17 : timestamp "0:00:17" = some 17 := by
  rw [timestamp3 "0:00:17" ['0'] ['0','0'] ['1','7'] _ _ _
      (by decide) (pyFloat_digits _ (by decide) (by decide))
      (pyFloat_digits _ (by decide) (by decide)) (pyFloat_digits _ (by decide) (by decide))]
  norm_num [(by decide : digitsVal ['0'] = 0), (by decide : digitsVal ['0','0'] = 0),
    (by decide : digitsVal ['1','7'] = 17)]

theorem tsv_19 : timestamp "0:00:19" = some 19 := by
  rw [timestamp3 "0:00:19" ['0'] ['0','0'] ['1','9'] _ _ _
      (by decide) (pyFloat_digits _ (by decide) (by decide))
      (pyFloat_digits _ (by decide) (by decide)) (pyFloat_digits _ (by decide) (by decide))]
  norm_num [(by decide : digitsVal ['0'] = 0), (by decide : digitsVal ['0','0'] = 0),
    (by decide : digitsVal ['1','9'] = 19)]

theorem tsv_12005 : timestamp "12.005" = some (2401/200) := by
  rw [timestamp1 "12.005" (['1','2'] ++ '.' :: ['0','0','5']) _
      (by decide) (pyFloat_dot ['1','2'] ['0','0','5'] (by decide) (by decide) (by decide))]
  norm_num [(by decide : digitsVal ['1','2'] = 12), (by decide : digitsVal ['0','0','5'] = 5)]

theorem tsv_12500 : timestamp "0:00:12.500" = some (25/2) := by
  rw [timestamp3 "0:00:12.500" ['0'] ['0','0'] (['1','2'] ++ '.' :: ['5','0','0']) _ _ _
      (by decide) (pyFloat_digits _ (by decide) (by decide))
      (pyFloat_digits _ (by decide) (by decide))
      (pyFloat_dot ['1','2'] ['5','0','0'] (by decide) (by decide) (by decide))]
  norm_num [(by decide : digitsVal ['0'] = 0), (by decide : digitsVal ['0','0'] = 0),
    (by decide : digitsVal ['1','2'] = 12), (by decide : digitsVal ['5','0','0'] = 500)]

/-! ### Concrete metadata-line parses -/

theorem pt_dual10 : parseTimes (splitComma "0:00:10.000,0:00:12.000") = .ok [10, 12] := by
  rw [show splitComma "0:00:10.000,0:00:12.000" = ["0:00:10.000", "0:00:12.000"] from by decide]
  simp [parseTimes, tsv_10_000, tsv_12_000]

theorem pt_dual15 : parseTimes (splitComma "0:00:15.000,0:00:18.000") = .ok [15, 18] := by
  rw [show splitComma "0:00:15.000,0:00:18.000" = ["0:00:15.000", "0:00:18.000"] from by decide]
  simp [parseTimes, tsv_15_000, tsv_18_000]

theorem pt_dualShort : parseTimes (splitComma "0:00:10,0:00:12") = .ok [10, 12] := by
  rw [show splitComma "0:00:10,0:00:12" = ["0:00:10", "0:00:12"] from by decide]
  simp [parseTimes, tsv_10, tsv_12]

theorem pt_triple : parseTimes (splitComma "0:00:15,0:00:17,0:00:19") = .ok [15, 17, 19] := by
  rw [show splitComma "0:00:15,0:00:17,0:00:19" = ["0:00:15", "0:00:17", "0:00:19"] from by decide]
  simp [parseTimes, tsv_15, tsv_17, tsv_19]

theorem pt_s000 : parseTimes (splitComma "0:00") = .ok [0] := by
  rw [show splitComma "0:00" = ["0:00"] from by decide]
  simp [parseTimes, tsv_0_00]

theorem pt_s001 : parseTimes (splitComma "0:01") = .ok [1] := by
  rw [show splitComma "0:01" = ["0:01"] from by decide]
  simp [parseTimes, tsv_0_01]

theorem pt_s005 : parseTimes (splitComma "0:05") = .ok [5] := by
  rw [show splitComma "0:05" = ["0:05"] from by decide]
  simp [parseTimes, tsv_0_05]

/-! ### Decimal rendering lemmas (for the codec round-trip) -/

theorem digitsValFrom_append (a : ℕ) (xs ys : List Char) :
    digitsValFrom a (xs ++ ys) = digitsValFrom (digitsValFrom a xs) ys := by
  induction xs generalizing a with
  | nil => rfl
  | cons c cs ih =>
    show digitsValFrom (a * 10 + digitVal c) (cs ++ ys)
      = digitsValFrom (digitsValFrom (a * 10 + digitVal c) cs) ys
    exact ih _

theorem digitsVal_concat (ds : List Char) (c : Char) :
    digitsVal (ds ++ [c]) = digitsVal ds * 10 + digitVal c := by
  rw [digitsVal, digitsValFrom_append]
  rfl

theorem digitChar_isDigit (d : ℕ) : (digitChar d).isDigit = true := by
  rcases d with _|_|_|_|_|_|_|_|_|d <;> rfl

theorem digitVal_digitChar (d : ℕ) (h : d < 10) : digitVal (digitChar d) = d := by
  interval_cases d <;> decide

theorem natToDigitsGo_spec : ∀ (fuel n : ℕ) (acc : List Char), 0 < n → n < fuel →
    ∃ ds, natToDigitsGo fuel n acc = ds ++ acc ∧ ds ≠ [] ∧ ds.all Char.isDigit = true ∧
      digitsVal ds = n ∧ n < 10 ^ ds.length ∧ 10 ^ (ds.length - 1) ≤ n := by
  intro fuel
  induction fuel with
  | zero => intro n acc h1 h2; omega
  | succ fuel ih =>
    intro n acc h1 h2
    rcases n with _ | m
    · omega
    obtain ⟨D, hD⟩ : ∃ D, (m + 1) % 10 = D := ⟨_, rfl⟩
    have hD10 : D < 10 := hD ▸ Nat.mod_lt _ (by norm_num)
    have hdm : 10 * ((m + 1) / 10) + D = m + 1 := by rw [← hD]; exact Nat.div_add_mod _ _
    by_cases h10 : (m + 1) / 10 = 0
    · have hlt : m + 1 < 10 := by omega
      refine ⟨[digitChar D], ?_, by simp, by simp [digitChar_isDigit], ?_, ?_, ?_⟩
      · rw [natToDigitsGo, h10, hD]
        rcases fuel with _ | fuel' <;> rfl
      · show 0 * 10 + digitVal (digitChar D) = m + 1
        rw [digitVal_digitChar D hD10]
        omega
      · simpa using hlt
      · simpa using h1
    · have hd : (m + 1) / 10 < fuel := by omega
      have hpos : 0 < (m + 1) / 10 := Nat.pos_of_ne_zero h10
      obtain ⟨ds, hgo, hne, hdig, hval, hub, hlb⟩ :=
        ih ((m + 1) / 10) (digitChar D :: acc) hpos hd
      refine ⟨ds ++ [digitChar D], ?_, by simp, ?_, ?_, ?_, ?_⟩
      · rw [natToDigitsGo, hD, hgo]
        simp
      · simp [List.all_append, hdig, digitChar_isDigit]
      · rw [digitsVal_concat, hval, digitVal_digitChar D hD10]
        omega
      · have hlen : (ds ++ [digitChar D]).length = ds.length + 1 := by simp
        rw [hlen, pow_succ]
        set B := (10 : ℕ) ^ ds.length
        omega
      · have hlen1 : 1 ≤ ds.length := List.length_pos.mpr hne
        have hlen : (ds ++ [digitChar D]).length = ds.length + 1 := by simp
        have hpow : (10 : ℕ) ^ ds.length = 10 * 10 ^ (ds.length - 1) := by
          rw [← pow_succ']
          congr 1
          omega
        rw [hlen]
        simp only [Nat.add_sub_cancel]
        rw [hpow]
        set B := (10 : ℕ) ^ (ds.length - 1)
        omega

theorem natToDigits_spec (n : ℕ) :
    natToDigits n ≠ [] ∧ (natToDigits n).all Char.isDigit = true ∧
    digitsVal (natToDigits n) = n ∧ n < 10 ^ (natToDigits n).length ∧
    (0 < n → 10 ^ ((natToDigits n).length - 1) ≤ n) := by
  by_cases h : n = 0
  · subst h
    exact ⟨by decide, by decide, by decide, by decide, fun hc => absurd hc (by decide)⟩
  · obtain ⟨ds, hgo, hne, hdig, hval, hub, hlb⟩ :=
      natToDigitsGo_spec (n + 1) n [] (Nat.pos_of_ne_zero h) (by omega)
    have hnd : natToDigits n = ds := by rw [natToDigits, if_neg h, hgo, List.append_nil]
    rw [hnd]
    exact ⟨hne, hdig, hval, hub, fun _ => hlb⟩

theorem zeros_all_digit (k : ℕ) : (List.replicate k '0').all Char.isDigit = true := by
  induction k with
  | zero => rfl
  | succ k ih => simpa [List.replicate_succ] using ih

theorem digitsVal_zeros_append (k : ℕ) (ds : List Char) :
    digitsVal (List.replicate k '0' ++ ds) = digitsVal ds := by
  rw [digitsVal, digitsValFrom_append]
  have hz : digitsValFrom 0 (List.replicate k '0') = 0 := by
    induction k with
    | zero => rfl
    | succ k ih =>
      rw [List.replicate_succ]
      show digitsValFrom (0 * 10 + digitVal '0') (List.replicate k '0') = 0
      simpa [digitVal] using ih
  rw [hz]
  rfl

theorem digitsVal_pad2 (ds : List Char) : digitsVal (pad2 ds) = digitsVal ds :=
  digitsVal_zeros_append _ ds

theorem pad2_all (ds : List Char) (h : ds.all Char.isDigit = true) :
    (pad2 ds).all Char.isDigit = true := by
  simp [pad2, List.all_append, h, zeros_all_digit]

theorem pad2_ne_nil (ds : List Char) (h : ds ≠ []) : pad2 ds ≠ [] := by
  simp [pad2, h]

theorem natToDigits_len3 (ms : ℕ) (h1 : 100 ≤ ms) (h2 : ms < 1000) :
    (natToDigits ms).length = 3 := by
  obtain ⟨hne, _, _, hub, hlb⟩ := natToDigits_spec ms
  have hlb' := hlb (by omega)
  have hLpos : 1 ≤ (natToDigits ms).length := List.length_pos.mpr hne
  set L := (natToDigits ms).length with hL
  have hA : ¬ 4 ≤ L := by
    intro h4
    have hc : (1000 : ℕ) ≤ 10 ^ (L - 1) := by
      calc (1000 : ℕ) = 10 ^ 3 := by norm_num
      _ ≤ 10 ^ (L - 1) := Nat.pow_le_pow_right (by norm_num) (by omega)
    omega
  have hB : ¬ L ≤ 2 := by
    intro hle
    have hc : (10 : ℕ) ^ L ≤ 100 := by
      calc (10 : ℕ) ^ L ≤ 10 ^ 2 := Nat.pow_le_pow_right (by norm_num) hle
      _ = 100 := by norm_num
    omega
  omega

theorem padR3_of_len3 (ds : List Char) (h : ds.length = 3) : padR3 ds = ds := by
  simp [padR3, h]

theorem digits_colonFree (ds : List Char) (h : ds.all Char.isDigit = true) :
    ∀ x ∈ ds, x ≠ ':' := fun x hx =>
  digit_ne x ':' (by simpa using List.all_eq_true.mp h x hx) (by decide)

theorem dotDigits_colonFree (i f : List Char) (hi : i.all Char.isDigit = true)
    (hf : f.all Char.isDigit = true) : ∀ x ∈ i ++ '.' :: f, x ≠ ':' := by
  intro x hx
  rcases List.mem_append.mp hx with hx | hx
  · exact digits_colonFree i hi x hx
  · rcases List.mem_cons.mp hx with rfl | hx
    · decide
    · exact digits_colonFree f hf x hx

/-! ### Claim C2 -/

theorem tstr_12005 : timestampStr (2401/200 : ℚ) = some "0:00:12.500" := by
  have hf : ⌊(2401 : ℚ)/200⌋ = 12 := by norm_num
  have h1 : (⌊(2401 : ℚ)/200⌋).toNat = 12 := by rw [hf]; rfl
  have h2 : (⌊((2401 : ℚ)/200 - ((12 : ℕ) : ℚ)) * 1000⌋).toNat = 5 := by
    have hf2 : ⌊((2401 : ℚ)/200 - ((12 : ℕ) : ℚ)) * 1000⌋ = 5 := by
      push_cast
      norm_num
    rw [hf2]
    rfl
  rw [timestampStr, if_neg (by norm_num : ¬ ((2401 : ℚ)/200 < 0))]
  simp only [h1, h2]
  decide

/-- C2 counterexample: the valid timestamp text `12.005` parses to 12.005
seconds; `timestampStr` renders it as `0:00:12.500` (the millisecond value 5
is padded on the RIGHT by the `{ms:0<3}` format spec), which parses back to
12.5 — off by 0.495 seconds, far beyond 1 millisecond. -/
theorem c2_cex_ms_pad_right :
    timestamp "12.005" = some (2401/200)
    ∧ timestampStr (2401/200) = some "0:00:12.500"
    ∧ timestamp "0:00:12.500" = some (25/2)
    ∧ ¬ ((25 : ℚ)/2 - 2401/200 ≤ 1/1000 ∧ 2401/200 - (25 : ℚ)/2 ≤ 1/1000) := by
  refine ⟨tsv_12005, tstr_12005, tsv_12500, ?_⟩
  rintro ⟨h, _⟩
  norm_num at h

/-- C2 amended: for every valid timestamp text `T` (parsing to a
non-negative value `q`) whose millisecond field `int(frac(q)*1000)` is
either 0 or at least 100 (so that the right-padded rendering coincides with
the correct 3-digit one), re-parsing `timestampStr q` yields a value within
1 millisecond below `q`. (The original unrestricted claim fails because of
the `{ms:0<3}` right-padding; see the counterexample.) -/
theorem c2_amended_roundtrip (T : String) (q : ℚ)
    (hT : timestamp T = some q) (h0 : 0 ≤ q)
    (hms : msOf q = 0 ∨ 100 ≤ msOf q) :
    ∃ s q2, timestampStr q = some s ∧ timestamp s = some q2 ∧
      0 ≤ q - q2 ∧ q - q2 ≤ 1/1000 := by
  obtain ⟨S, hS⟩ : ∃ S : ℕ, (⌊q⌋).toNat = S := ⟨_, rfl⟩
  obtain ⟨M, hM⟩ : ∃ M : ℕ, (⌊(q - (S : ℚ)) * 1000⌋).toNat = M := ⟨_, rfl⟩
  have hmsM : msOf q = M := by rw [msOf, hS, hM]
  have hstr0 : timestampStr q = some (String.mk
      (natToDigits ((⌊q⌋).toNat / 60 / 60) ++ ':' :: pad2 (natToDigits ((⌊q⌋).toNat / 60 % 60))
        ++ ':' :: pad2 (natToDigits ((⌊q⌋).toNat % 60)) ++ '.' ::
        padR3 (natToDigits ((⌊(q - (((⌊q⌋).toNat : ℕ) : ℚ)) * 1000⌋).toNat)))) := by
    rw [timestampStr, if_neg (not_lt.mpr h0)]
  rw [hS, hM] at hstr0
  -- numeric facts
  have hSQ : (S : ℚ) = (⌊q⌋ : ℚ) := by
    rw [← hS]
    exact_mod_cast Int.toNat_of_nonneg (Int.floor_nonneg.mpr h0)
  have hfloor_le : (⌊q⌋ : ℚ) ≤ q := Int.floor_le q
  have hfloor_gt : q < (⌊q⌋ : ℚ) + 1 := Int.lt_floor_add_one q
  have hMZ : ((M : ℕ) : ℤ) = ⌊(q - (S : ℚ)) * 1000⌋ := by
    rw [← hM]
    exact Int.toNat_of_nonneg (Int.floor_nonneg.mpr
      (mul_nonneg (by rw [hSQ]; linarith) (by norm_num)))
  have hM_le : (M : ℚ) ≤ (q - (S : ℚ)) * 1000 := by
    have h := Int.floor_le ((q - (S : ℚ)) * 1000)
    rw [← hMZ] at h
    exact_mod_cast h
  have hM_gt : (q - (S : ℚ)) * 1000 < (M : ℚ) + 1 := by
    have h := Int.lt_floor_add_one ((q - (S : ℚ)) * 1000)
    rw [← hMZ] at h
    exact_mod_cast h
  have hM1000 : M < 1000 := by
    have hlt : (q - (S : ℚ)) * 1000 < 1000 := by
      rw [hSQ]
      nlinarith [hfloor_gt]
    have hq : (M : ℚ) < 1000 := lt_of_le_of_lt hM_le hlt
    exact_mod_cast hq
  -- digit components
  obtain ⟨hHne, hHdig, hHval, _, _⟩ := natToDigits_spec (S / 60 / 60)
  obtain ⟨hM2ne, hM2dig, hM2val, _, _⟩ := natToDigits_spec (S / 60 % 60)
  obtain ⟨hS2ne, hS2dig, hS2val, _, _⟩ := natToDigits_spec (S % 60)
  obtain ⟨F, hFeq, hFdig, hFval, hFlen⟩ :
      ∃ F, padR3 (natToDigits M) = F ∧ F.all Char.isDigit = true ∧
        digitsVal F = M ∧ F.length = 3 := by
    rcases hms with hz | h100
    · have hM0 : M = 0 := by rw [← hmsM]; exact hz
      subst hM0
      exact ⟨['0', '0', '0'], by decide, by decide, by decide, by decide⟩
    · have h100' : 100 ≤ M := by rw [hmsM] at h100; exact h100
      obtain ⟨_, hdig, hval, _, _⟩ := natToDigits_spec M
      have hlen3 := natToDigits_len3 M h100' hM1000
      exact ⟨natToDigits M, padR3_of_len3 _ hlen3, hdig, hval, hlen3⟩
  rw [hFeq] at hstr0
  -- parse the rendered string back
  have hdata : (String.mk
      (natToDigits (S / 60 / 60) ++ ':' :: pad2 (natToDigits (S / 60 % 60))
        ++ ':' :: pad2 (natToDigits (S % 60)) ++ '.' :: F)).data
      = natToDigits (S / 60 / 60) ++ ':' :: (pad2 (natToDigits (S / 60 % 60))
        ++ ':' :: (pad2 (natToDigits (S % 60)) ++ '.' :: F)) := by
    show natToDigits (S / 60 / 60) ++ ':' :: pad2 (natToDigits (S / 60 % 60))
        ++ ':' :: pad2 (natToDigits (S % 60)) ++ '.' :: F
      = natToDigits (S / 60 / 60) ++ ':' :: (pad2 (natToDigits (S / 60 % 60))
        ++ ':' :: (pad2 (natToDigits (S % 60)) ++ '.' :: F))
    simp [List.append_assoc]
  have hsplit : splitCh ':' (String.mk
      (natToDigits (S / 60 / 60) ++ ':' :: pad2 (natToDigits (S / 60 % 60))
        ++ ':' :: pad2 (natToDigits (S % 60)) ++ '.' :: F)).data
      = [natToDigits (S / 60 / 60), pad2 (natToDigits (S / 60 % 60)),
         pad2 (natToDigits (S % 60)) ++ '.' :: F] := by
    rw [hdata, splitCh_append ':' _ _ (digits_colonFree _ hHdig),
        splitCh_append ':' _ _ (digits_colonFree _ (pad2_all _ hM2dig)),
        splitCh_sepFree ':' _ (dotDigits_colonFree _ _ (pad2_all _ hS2dig) hFdig)]
  have hA : pyFloat (natToDigits (S / 60 / 60))
      = some ((S / 60 / 60 : ℕ) : ℚ) := by
    rw [pyFloat_digits _ hHne hHdig, hHval]
  have hB : pyFloat (pad2 (natToDigits (S / 60 % 60)))
      = some ((S / 60 % 60 : ℕ) : ℚ) := by
    rw [pyFloat_digits _ (pad2_ne_nil _ hM2ne) (pad2_all _ hM2dig), digitsVal_pad2, hM2val]
  have hC : pyFloat (pad2 (natToDigits (S % 60)) ++ '.' :: F)
      = some (((S % 60 : ℕ) : ℚ) + (M : ℚ) / 1000) := by
    rw [pyFloat_dot _ _ (pad2_ne_nil _ hS2ne) (pad2_all _ hS2dig) hFdig,
        digitsVal_pad2, hS2val, hFval, hFlen]
    norm_num
  have hts := timestamp3 _ _ _ _ _ _ _ hsplit hA hB hC
  refine ⟨_, _, hstr0, hts, ?_, ?_⟩
  · -- 0 ≤ q - q2
    have hdecomp : S = 3600 * (S / 60 / 60) + 60 * (S / 60 % 60) + S % 60 := by
      have h1 := Nat.div_add_mod S 60
      have h2 := Nat.div_add_mod (S / 60) 60
      omega
    have hdecompQ : (S : ℚ)
        = 3600 * ((S / 60 / 60 : ℕ) : ℚ) + 60 * ((S / 60 % 60 : ℕ) : ℚ)
          + ((S % 60 : ℕ) : ℚ) := by
      exact_mod_cast congrArg (fun n : ℕ => (n : ℚ)) hdecomp
    linarith [hM_le]
  · have hdecomp : S = 3600 * (S / 60 / 60) + 60 * (S / 60 % 60) + S % 60 := by
      have h1 := Nat.div_add_mod S 60
      have h2 := Nat.div_add_mod (S / 60) 60
      omega
    have hdecompQ : (S : ℚ)
        = 3600 * ((S / 60 / 60 : ℕ) : ℚ) + 60 * ((S / 60 % 60 : ℕ) : ℚ)
          + ((S % 60 : ℕ) : ℚ) := by
      exact_mod_cast congrArg (fun n : ℕ => (n : ℚ)) hdecomp
    linarith [hM_gt]

theorem tsv_1_03_05_250 : timestamp "1:03:05.250" = some (15141/4) := by
  rw [timestamp3 "1:03:05.250" ['1'] ['0','3'] (['0','5'] ++ '.' :: ['2','5','0']) _ _ _
      (by decide) (pyFloat_digits _ (by decide) (by decide))
      (pyFloat_digits _ (by decide) (by decide))
      (pyFloat_dot ['0','5'] ['2','5','0'] (by decide) (by decide) (by decide))]
  norm_num [(by decide : digitsVal ['1'] = 1), (by decide : digitsVal ['0','3'] = 3),
    (by decide : digitsVal ['0','5'] = 5), (by decide : digitsVal ['2','5','0'] = 250)]

/-- C2 amended, witness: `1:03:05.250` (3785.25 s, millisecond field 250)
round-trips within 1 millisecond. -/
theorem c2_amended_roundtrip_witness :
    timestamp "1:03:05.250" = some (15141/4)
    ∧ ∃ s q2, timestampStr (15141/4) = some s ∧ timestamp s = some q2 ∧
        0 ≤ 15141/4 - q2 ∧ 15141/4 - q2 ≤ 1/1000 := by
  have hmsv : msOf ((15141 : ℚ)/4) = 250 := by
    have hf : ⌊(15141 : ℚ)/4⌋ = 3785 := by norm_num
    rw [msOf, hf]
    have h3 : (((3785 : ℤ).toNat : ℕ) : ℚ) = 3785 := by
      rw [show (3785 : ℤ).toNat = 3785 from rfl]
      norm_num
    rw [h3]
    have h2 : ⌊((15141 : ℚ)/4 - 3785) * 1000⌋ = 250 := by norm_num
    rw [h2]
    rfl
  exact ⟨tsv_1_03_05_250, c2_amended_roundtrip "1:03:05.250" (15141/4) tsv_1_03_05_250
    (by norm_num) (Or.inr (by rw [hmsv]; norm_num))⟩

/-! ### Claim C1 -/

/-- C1: the spec's Dual end-to-end scenario (input
`0:00:10.000,0:00:12.000 / Hello / 0:00:15.000,0:00:18.000 / World`,
target start time 0) is claimed to produce the records
`(0.000, 2.000, ["Hello"])` and `(5.000, 8.000, ["World"])` without error.
The code instead raises `AssertionError` at the second metadata line
(`assert len(times) == 2` with `times == []`): the first Dual metadata line
never seeds `times`, so nothing is emitted and processing aborts. -/
theorem c1_dual_realign_crashes :
    adjustSbv ["0:00:10.000,0:00:12.000", "Hello", "0:00:15.000,0:00:18.000", "World"]
      (some 0) = ([], some (AdjErr.assertDualPair [])) := by
  have s1 : step (initState (some 0)) "0:00:10.000,0:00:12.000"
      = .ok (⟨false, some true, some ((10 : ℚ) - 0), [], []⟩, []) :=
    step_meta_noemit (initState (some 0)) _ _ "0:00:10.000,0:00:12.000" (some [10, 12])
      (by decide) (by decide) (by decide)
      (metaStep_first_dual _ _ 10 12 rfl rfl pt_dual10) rfl
  have s2 : step (⟨false, some true, some ((10 : ℚ) - 0), [], []⟩ : AdjState) "Hello"
      = .ok (⟨false, some true, some ((10 : ℚ) - 0), [], ["Hello"]⟩, []) :=
    step_text _ "Hello" "Hello" [] (by decide) (by decide) (by decide)
  have s3 : step (⟨false, some true, some ((10 : ℚ) - 0), [], ["Hello"]⟩ : AdjState)
      "0:00:15.000,0:00:18.000" = .error (.assertDualPair []) :=
    step_meta_err _ _ "0:00:15.000,0:00:18.000" _ (by decide) (by decide) (by decide)
      (metaStep_dual_assert _ _ [15, 18] rfl (by decide) pt_dual15)
  have run : runLines (initState (some 0))
      ["0:00:10.000,0:00:12.000", "Hello", "0:00:15.000,0:00:18.000", "World"]
      = (⟨false, some true, some ((10 : ℚ) - 0), [], ["Hello"]⟩, [],
         some (.assertDualPair [])) := by
    rw [runLines_cons_ok _ _ _ _ _ s1, runLines_cons_ok _ _ _ _ _ s2,
        runLines_cons_err _ _ _ _ s3]
    simp
  exact adjustSbv_run_err _ _ _ _ _ run

/-! ### Claim C5 -/

/-- C5: Single end-to-end scenario without realignment (input
`0:00 / Hello / 0:00:05 / World`, no target start time): the run emits
`(0.0, 5.0, ["Hello"])` and then, the stream ending there, the synthesized
final record `(5.0, 10.0, ["World"])`, without error. -/
theorem c5_single_scenario :
    adjustSbv ["0:00", "Hello", "0:00:05", "World"] none
      = ([{ times := [0, 5], captions := ["Hello"] },
          { times := [5, 10], captions := ["World"] }], none) := by
  have s1 : step (initState none) "0:00"
      = .ok (⟨false, some false, none, [(0 : ℚ) - 0], []⟩, []) :=
    step_meta_noemit (initState none) _ _ "0:00" (some [0])
      (by decide) (by decide) (by decide)
      (metaStep_first_single _ _ 0 [] rfl rfl pt_s000 (by decide)) rfl
  have s2 : step (⟨false, some false, none, [(0 : ℚ) - 0], []⟩ : AdjState) "Hello"
      = .ok (⟨false, some false, none, [(0 : ℚ) - 0], ["Hello"]⟩, []) :=
    step_text _ "Hello" "Hello" [] (by decide) (by decide) (by decide)
  have s3 : step (⟨false, some false, none, [(0 : ℚ) - 0], ["Hello"]⟩ : AdjState) "0:00:05"
      = .ok (⟨false, some false, none, [(5 : ℚ) - 0], []⟩,
             [{ times := [(0 : ℚ) - 0, (5 : ℚ) - 0], captions := ["Hello"] }]) :=
    step_meta_emit_pop _ _ _ "0:00:05" none (by decide) (by decide) (by decide)
      (metaStep_single _ _ ((0 : ℚ) - 0) 5 rfl rfl tsv_05) (by simp) rfl
      (checkNonneg_ok _ (by intro t ht; simp at ht; rcases ht with rfl | rfl <;> norm_num))
  have s4 : step (⟨false, some false, none, [(5 : ℚ) - 0], []⟩ : AdjState) "World"
      = .ok (⟨false, some false, none, [(5 : ℚ) - 0], ["World"]⟩, []) :=
    step_text _ "World" "World" [] (by decide) (by decide) (by decide)
  have run : runLines (initState none) ["0:00", "Hello", "0:00:05", "World"]
      = (⟨false, some false, none, [(5 : ℚ) - 0], ["World"]⟩,
         [{ times := [(0 : ℚ) - 0, (5 : ℚ) - 0], captions := ["Hello"] }], none) := by
    rw [runLines_cons_ok _ _ _ _ _ s1, runLines_cons_ok _ _ _ _ _ s2,
        runLines_cons_ok _ _ _ _ _ s3, runLines_cons_ok _ _ _ _ _ s4]
    simp [runLines]
  have fin : finish (⟨false, some false, none, [(5 : ℚ) - 0], ["World"]⟩ : AdjState)
      = .ok [{ times := [(5 : ℚ) - 0, ((5 : ℚ) - 0) + 5], captions := ["World"] }] :=
    finish_synth _ ((5 : ℚ) - 0) (by simp) rfl
      (checkNonneg_ok _ (by intro t ht; simp at ht; rcases ht with rfl | rfl <;> norm_num))
  have hA := adjustSbv_run_ok _ _ _ _ _ run fin
  rw [hA]
  norm_num

/-! ### More run lemmas (used by C9, C10 and the C4 invariant) -/

theorem upd_isHdr_false (st : AdjState) (c : List String) (h : st.isHdr = false) :
    ({ st with isHdr := false, captions := c } : AdjState) = { st with captions := c } := by
  rcases st with ⟨ih, sb, t, tm, cp⟩
  simp only at h
  rw [h]

theorem runLines_textPrefix : ∀ (ls : List String) (st : AdjState),
    st.isHdr = false → (∀ l ∈ ls, textShape l = true) →
    runLines st ls = ({ st with captions := st.captions ++ ls }, [], none) := by
  intro ls
  induction ls with
  | nil => intro st _ _; simp [runLines]
  | cons l ls ih =>
    intro st hhdr h
    have htok := h l (List.mem_cons_self _ _)
    rcases hsp : pySplitMax1 l with _ | ⟨tok, rest⟩
    · rw [textShape, hsp] at htok
      exact absurd htok (by simp)
    · have hcond : (!rest.isEmpty || !headDigit tok) = true := by
        rw [textShape, hsp] at htok; exact htok
      have hs := step_text st l tok rest (by simp [hhdr]) hsp hcond
      rw [runLines_cons_ok _ _ _ _ _ hs, upd_isHdr_false st _ hhdr,
          ih { st with captions := st.captions ++ [l] } hhdr
            (fun x hx => h x (List.mem_cons_of_mem _ hx))]
      simp

/-! ### Claim C3 -/

/-- C3: realignment is claimed to be a pure uniform shift — every emitted
timestamp equals the corresponding parsed timestamp minus the constant
offset (first metadata timestamp minus target start time), including the
final record. On input `X / 0:00:10.000,0:00:12.000 / Hello` with target
start time 0, the offset is 10, so the final record should carry `0, 2`; the
code emits the raw pair `10, 12` (the pending pair is only offset-adjusted
when a later metadata line arrives, never at end of stream). -/
theorem c3_final_dual_record_unshifted :
    adjustSbv ["X", "0:00:10.000,0:00:12.000", "Hello"] (some 0)
      = ([{ times := [], captions := ["X"] },
          { times := [10, 12], captions := ["Hello"] }], none)
    ∧ timestamp "0:00:10.000" = some 10 ∧ timestamp "0:00:12.000" = some 12
    ∧ ((10 : ℚ) ≠ 10 - (10 - 0) ∨ (12 : ℚ) ≠ 12 - (10 - 0)) := by
  refine ⟨?_, tsv_10_000, tsv_12_000, by norm_num⟩
  have s1 : step (initState (some 0)) "X"
      = .ok (⟨false, none, some 0, [], ["X"]⟩, []) :=
    step_text _ "X" "X" [] (by decide) (by decide) (by decide)
  have s2 : step (⟨false, none, some 0, [], ["X"]⟩ : AdjState) "0:00:10.000,0:00:12.000"
      = .ok (⟨false, some true, some ((10 : ℚ) - 0), [10, 12], []⟩,
             [{ times := [], captions := ["X"] }]) :=
    step_meta_emit_dual _ _ _ "0:00:10.000,0:00:12.000" [10, 12]
      (by decide) (by decide) (by decide)
      (metaStep_first_dual _ _ 10 12 rfl rfl pt_dual10) (by decide) rfl rfl
  have s3 : step (⟨false, some true, some ((10 : ℚ) - 0), [10, 12], []⟩ : AdjState) "Hello"
      = .ok (⟨false, some true, some ((10 : ℚ) - 0), [10, 12], ["Hello"]⟩, []) :=
    step_text _ "Hello" "Hello" [] (by decide) (by decide) (by decide)
  have run : runLines (initState (some 0)) ["X", "0:00:10.000,0:00:12.000", "Hello"]
      = (⟨false, some true, some ((10 : ℚ) - 0), [10, 12], ["Hello"]⟩,
         [{ times := [], captions := ["X"] }], none) := by
    rw [runLines_cons_ok _ _ _ _ _ s1, runLines_cons_ok _ _ _ _ _ s2,
        runLines_cons_ok _ _ _ _ _ s3]
    simp [runLines]
  have fin : finish (⟨false, some true, some ((10 : ℚ) - 0), [10, 12], ["Hello"]⟩ : AdjState)
      = .ok [{ times := [10, 12], captions := ["Hello"] }] :=
    finish_pair _ 10 12 (by simp) rfl
      (checkNonneg_ok _ (by intro t ht; simp at ht; rcases ht with rfl | rfl <;> norm_num))
  exact adjustSbv_run_ok _ _ _ _ _ run fin

/-! ### Claim C6 -/

/-- C6 counterexample: input `0:00 / 0:00:03 / X` (Single encoding, two
consecutive metadata lines, stream ending with buffered caption text and no
trailing metadata line) yields the final record `(0, 3, ["X"])`, whose end is
not its start plus 5: the pending pair left by the un-emitted metadata line
is used as-is. -/
theorem c6_cex_pending_pair_used_as_is :
    adjustSbv ["0:00", "0:00:03", "X"] none
      = ([{ times := [0, 3], captions := ["X"] }], none) ∧ (3 : ℚ) ≠ 0 + 5 := by
  constructor
  · have s1 : step (initState none) "0:00"
        = .ok (⟨false, some false, none, [(0 : ℚ) - 0], []⟩, []) :=
      step_meta_noemit (initState none) _ _ "0:00" (some [0])
        (by decide) (by decide) (by decide)
        (metaStep_first_single _ _ 0 [] rfl rfl pt_s000 (by decide)) rfl
    have s2 : step (⟨false, some false, none, [(0 : ℚ) - 0], []⟩ : AdjState) "0:00:03"
        = .ok (⟨false, some false, none, [(0 : ℚ) - 0, (3 : ℚ) - 0], []⟩, []) :=
      step_meta_noemit _ _ _ "0:00:03" none (by decide) (by decide) (by decide)
        (metaStep_single _ _ ((0 : ℚ) - 0) 3 rfl rfl tsv_03) rfl
    have s3 : step (⟨false, some false, none, [(0 : ℚ) - 0, (3 : ℚ) - 0], []⟩ : AdjState) "X"
        = .ok (⟨false, some false, none, [(0 : ℚ) - 0, (3 : ℚ) - 0], ["X"]⟩, []) :=
      step_text _ "X" "X" [] (by decide) (by decide) (by decide)
    have run : runLines (initState none) ["0:00", "0:00:03", "X"]
        = (⟨false, some false, none, [(0 : ℚ) - 0, (3 : ℚ) - 0], ["X"]⟩, [], none) := by
      rw [runLines_cons_ok _ _ _ _ _ s1, runLines_cons_ok _ _ _ _ _ s2,
          runLines_cons_ok _ _ _ _ _ s3]
      simp [runLines]
    have fin : finish (⟨false, some false, none, [(0 : ℚ) - 0, (3 : ℚ) - 0], ["X"]⟩ : AdjState)
        = .ok [{ times := [(0 : ℚ) - 0, (3 : ℚ) - 0], captions := ["X"] }] :=
      finish_pair _ ((0 : ℚ) - 0) ((3 : ℚ) - 0) (by simp) rfl
        (checkNonneg_ok _ (by intro t ht; simp at ht; rcases ht with rfl | rfl <;> norm_num))
    have hA := adjustSbv_run_ok _ _ _ _ _ run fin
    rw [hA]
    norm_num
  · norm_num

/-- C6 amended: when a Single-encoded run reaches end of stream with
non-empty buffered caption text AND a single pending timestamp (i.e. the
last metadata line was consumed into an emission or was the first one), the
final record is synthesized with `end = start + 5`. (The original claim
fails when two consecutive metadata lines leave a full pending pair:
see the counterexample.) -/
theorem c6_amended_synth_plus_five (lines : List String) (ts : Option ℚ)
    (st : AdjState) (evs : List Event) (a : ℚ)
    (hrun : runLines (initState ts) lines = (st, evs, none))
    (hmode : st.isSbv = some false) (ht : st.times = [a])
    (hc : st.captions ≠ []) (ha : 0 ≤ a) :
    adjustSbv lines ts = (evs ++ [{ times := [a, a + 5], captions := st.captions }], none) := by
  refine adjustSbv_run_ok _ _ _ _ _ hrun (finish_synth _ a hc ht (checkNonneg_ok _ ?_))
  intro t htm
  simp at htm
  rcases htm with rfl | rfl
  · exact ha
  · linarith

/-- C6 amended, witness: on `0:00 / X` (no target start time) the final
record is `(0-0, (0-0)+5)` with the buffered text. -/
theorem c6_amended_synth_plus_five_witness :
    adjustSbv ["0:00", "X"] none
      = ([{ times := [(0 : ℚ) - 0, ((0 : ℚ) - 0) + 5], captions := ["X"] }], none) := by
  have s1 : step (initState none) "0:00"
      = .ok (⟨false, some false, none, [(0 : ℚ) - 0], []⟩, []) :=
    step_meta_noemit (initState none) _ _ "0:00" (some [0])
      (by decide) (by decide) (by decide)
      (metaStep_first_single _ _ 0 [] rfl rfl pt_s000 (by decide)) rfl
  have s2 : step (⟨false, some false, none, [(0 : ℚ) - 0], []⟩ : AdjState) "X"
      = .ok (⟨false, some false, none, [(0 : ℚ) - 0], ["X"]⟩, []) :=
    step_text _ "X" "X" [] (by decide) (by decide) (by decide)
  have run : runLines (initState none) ["0:00", "X"]
      = (⟨false, some false, none, [(0 : ℚ) - 0], ["X"]⟩, [], none) := by
    rw [runLines_cons_ok _ _ _ _ _ s1, runLines_cons_ok _ _ _ _ _ s2]
    simp [runLines]
  have h := c6_amended_synth_plus_five ["0:00", "X"] none _ [] ((0 : ℚ) - 0)
    run rfl rfl (by simp) (by norm_num)
  simpa using h

/-! ### Claim C7 -/

/-- C7 counterexample: input `0:05 / 0:00:07 / X` (Single encoding): after
the subsequent metadata line `0:00:07` is processed with an empty caption
buffer, the claim says the pending boundary becomes 7 (the start of the next
caption); the code instead retains 5, and the next caption `X` is emitted as
`(5, 7)` — its start is the OLD pending value, not the newly parsed one. -/
theorem c7_cex_no_advance_on_empty_buffer :
    adjustSbv ["0:05", "0:00:07", "X"] none
      = ([{ times := [5, 7], captions := ["X"] }], none) ∧ (5 : ℚ) ≠ 7 := by
  constructor
  · have s1 : step (initState none) "0:05"
        = .ok (⟨false, some false, none, [(5 : ℚ) - 0], []⟩, []) :=
      step_meta_noemit (initState none) _ _ "0:05" (some [5])
        (by decide) (by decide) (by decide)
        (metaStep_first_single _ _ 5 [] rfl rfl pt_s005 (by decide)) rfl
    have s2 : step (⟨false, some false, none, [(5 : ℚ) - 0], []⟩ : AdjState) "0:00:07"
        = .ok (⟨false, some false, none, [(5 : ℚ) - 0, (7 : ℚ) - 0], []⟩, []) :=
      step_meta_noemit _ _ _ "0:00:07" none (by decide) (by decide) (by decide)
        (metaStep_single _ _ ((5 : ℚ) - 0) 7 rfl rfl tsv_07) rfl
    have s3 : step (⟨false, some false, none, [(5 : ℚ) - 0, (7 : ℚ) - 0], []⟩ : AdjState) "X"
        = .ok (⟨false, some false, none, [(5 : ℚ) - 0, (7 : ℚ) - 0], ["X"]⟩, []) :=
      step_text _ "X" "X" [] (by decide) (by decide) (by decide)
    have run : runLines (initState none) ["0:05", "0:00:07", "X"]
        = (⟨false, some false, none, [(5 : ℚ) - 0, (7 : ℚ) - 0], ["X"]⟩, [], none) := by
      rw [runLines_cons_ok _ _ _ _ _ s1, runLines_cons_ok _ _ _ _ _ s2,
          runLines_cons_ok _ _ _ _ _ s3]
      simp [runLines]
    have fin : finish (⟨false, some false, none, [(5 : ℚ) - 0, (7 : ℚ) - 0], ["X"]⟩ : AdjState)
        = .ok [{ times := [(5 : ℚ) - 0, (7 : ℚ) - 0], captions := ["X"] }] :=
      finish_pair _ ((5 : ℚ) - 0) ((7 : ℚ) - 0) (by simp) rfl
        (checkNonneg_ok _ (by intro t ht; simp at ht; rcases ht with rfl | rfl <;> norm_num))
    have hA := adjustSbv_run_ok _ _ _ _ _ run fin
    rw [hA]
    norm_num
  · norm_num

/-- C7 amended: at a subsequent Single metadata line the pending boundary
advances to the newly parsed (offset-adjusted) value only when the caption
buffer is non-empty (a record is emitted); when the buffer is empty the new
value is appended after the retained old pending value, which remains the
start of the next caption. -/
theorem c7_amended_advance_only_on_emit (st : AdjState) (ln tok : String) (a v : ℚ)
    (hh : (st.isHdr && startsHash ln) = false)
    (hs : pySplitMax1 ln = [tok]) (hd : headDigit tok = true)
    (hmode : st.isSbv = some false) (ht : st.times = [a])
    (hv : timestamp ln = some v) :
    (st.captions = [] →
      step st ln = .ok ({ st with isHdr := false, times := [a, v - st.ts.getD 0] }, []))
    ∧ (st.captions ≠ [] → 0 ≤ a → 0 ≤ v - st.ts.getD 0 →
      step st ln = .ok ({ st with isHdr := false, times := [v - st.ts.getD 0], captions := [] },
        [{ times := [a, v - st.ts.getD 0], captions := st.captions }])) := by
  constructor
  · intro hc
    exact step_meta_noemit _ _ _ tok none hh hs hd
      (metaStep_single _ _ a v hmode ht hv) hc
  · intro hc ha hv0
    have h := step_meta_emit_pop st _ ln tok none hh hs hd
      (metaStep_single _ _ a v hmode ht hv) hc hmode
      (checkNonneg_ok _ (by intro t htm; simp at htm; rcases htm with rfl | rfl <;> assumption))
    simpa using h

/-- C7 amended, witness: in state `⟨false, some false, none, [2], ["z"]⟩`
the metadata line `0:00:04` emits `(2, 4-0, ["z"])` and the pending boundary
becomes `[4-0]`. -/
theorem c7_amended_advance_only_on_emit_witness :
    step (⟨false, some false, none, [2], ["z"]⟩ : AdjState) "0:00:04"
      = .ok (⟨false, some false, none, [(4 : ℚ) - 0], []⟩,
             [{ times := [2, (4 : ℚ) - 0], captions := ["z"] }]) := by
  have h := (c7_amended_advance_only_on_emit ⟨false, some false, none, [2], ["z"]⟩
    "0:00:04" "0:00:04" 2 4 (by decide) (by decide) (by decide) rfl rfl tsv_04).2
    (by simp) (by norm_num) (by norm_num)
  simpa using h

/-! ### Claim C8 -/

/-- C8 counterexample: on input
`X / 0:00:10,0:00:12 / Hello / 0:00:15,0:00:17,0:00:19 / World` (no target
start time) the metadata line with THREE comma-separated fields — met after
the Dual encoding was determined — does not terminate processing with an
error: the run completes, keeps emitting, and even writes the three-field
list as the final record's timing line. -/
theorem c8_cex_three_fields_no_error :
    adjustSbv ["X", "0:00:10,0:00:12", "Hello", "0:00:15,0:00:17,0:00:19", "World"] none
      = ([{ times := [], captions := ["X"] },
          { times := [10, 12], captions := ["Hello"] },
          { times := [15, 17, 19], captions := ["World"] }], none) := by
  have s1 : step (initState none) "X"
      = .ok (⟨false, none, none, [], ["X"]⟩, []) :=
    step_text _ "X" "X" [] (by decide) (by decide) (by decide)
  have s2 : step (⟨false, none, none, [], ["X"]⟩ : AdjState) "0:00:10,0:00:12"
      = .ok (⟨false, some true, none, [10, 12], []⟩,
             [{ times := [], captions := ["X"] }]) :=
    step_meta_emit_dual _ _ _ "0:00:10,0:00:12" [10, 12]
      (by decide) (by decide) (by decide)
      (metaStep_first_dual _ _ 10 12 rfl rfl pt_dualShort) (by decide) rfl rfl
  have s3 : step (⟨false, some true, none, [10, 12], []⟩ : AdjState) "Hello"
      = .ok (⟨false, some true, none, [10, 12], ["Hello"]⟩, []) :=
    step_text _ "Hello" "Hello" [] (by decide) (by decide) (by decide)
  have hm4 : metaStep (⟨false, some true, none, [10, 12], ["Hello"]⟩ : AdjState)
      "0:00:15,0:00:17,0:00:19"
      = .ok ((⟨false, some true, none, [10, 12], ["Hello"]⟩ : AdjState), some [15, 17, 19]) :=
    metaStep_dual _ _ [15, 17, 19] rfl rfl pt_triple
  have hn4 : checkNonneg ([10, 12] : List ℚ) = .ok () :=
    checkNonneg_ok _ (by intro t ht; simp at ht; rcases ht with rfl | rfl <;> norm_num)
  have s4 : step (⟨false, some true, none, [10, 12], ["Hello"]⟩ : AdjState)
      "0:00:15,0:00:17,0:00:19"
      = .ok (⟨false, some true, none, [15, 17, 19], []⟩,
             [{ times := [10, 12], captions := ["Hello"] }]) :=
    step_meta_emit_dual _ _ _ "0:00:15,0:00:17,0:00:19" [15, 17, 19]
      (by decide) (by decide) (by decide) hm4 (by decide) rfl hn4
  have s5 : step (⟨false, some true, none, [15, 17, 19], []⟩ : AdjState) "World"
      = .ok (⟨false, some true, none, [15, 17, 19], ["World"]⟩, []) :=
    step_text _ "World" "World" [] (by decide) (by decide) (by decide)
  have run : runLines (initState none)
      ["X", "0:00:10,0:00:12", "Hello", "0:00:15,0:00:17,0:00:19", "World"]
      = (⟨false, some true, none, [15, 17, 19], ["World"]⟩,
         [{ times := [], captions := ["X"] },
          { times := [10, 12], captions := ["Hello"] }], none) := by
    rw [runLines_cons_ok _ _ _ _ _ s1, runLines_cons_ok _ _ _ _ _ s2,
        runLines_cons_ok _ _ _ _ _ s3, runLines_cons_ok _ _ _ _ _ s4,
        runLines_cons_ok _ _ _ _ _ s5]
    simp [runLines]
  have fin : finish (⟨false, some true, none, [15, 17, 19], ["World"]⟩ : AdjState)
      = .ok [{ times := [15, 17, 19], captions := ["World"] }] :=
    finish_other _ (by simp) (by intro t; simp)
      (checkNonneg_ok _ (by intro t ht; simp at ht; rcases ht with rfl | rfl | rfl <;> norm_num))
  exact adjustSbv_run_ok _ _ _ _ _ run fin

/-- C8 amended: a wrong field count is never an error at the offending line
itself; in Dual mode the mismatch only surfaces at the NEXT metadata line,
whose processing fails the `len(times) == 2` assertion (and if the stream
ends first, the wrong-arity pending list is emitted without any error, as
the counterexample shows). -/
theorem c8_amended_error_at_next_meta (st : AdjState) (ln tok : String) (tn : List ℚ)
    (hh : (st.isHdr && startsHash ln) = false)
    (hs : pySplitMax1 ln = [tok]) (hd : headDigit tok = true)
    (hmode : st.isSbv = some true) (hlen : st.times.length ≠ 2)
    (hp : parseTimes (splitComma ln) = .ok tn) :
    step st ln = .error (.assertDualPair st.times) := by
  exact step_meta_err _ _ tok _ hh hs hd
    (metaStep_dual_assert _ _ tn hmode hlen hp)

/-- C8 amended, witness: in Dual mode with the three-element pending list
`[15, 17, 19]`, the next metadata line fails the pending-pair assertion. -/
theorem c8_amended_error_at_next_meta_witness :
    step (⟨false, some true, none, [15, 17, 19], ["w"]⟩ : AdjState) "0:00:10,0:00:12"
      = .error (AdjErr.assertDualPair [15, 17, 19]) := by
  exact c8_amended_error_at_next_meta _ _ "0:00:10,0:00:12" [10, 12]
    (by decide) (by decide) (by decide) rfl (by decide) pt_dualShort

/-! ### Claim C9 -/

/-- C9 counterexample: the empty input stream — which contains no metadata
line — is claimed to terminate with an error; the code completes silently
with no output and no error. -/
theorem c9_cex_empty_input_no_error : adjustSbv [] none = ([], none) := rfl

theorem runLines_noMeta : ∀ (lines : List String) (st : AdjState),
    (∀ l ∈ lines, metaShape l = false) →
    ∃ st', runLines st lines = (st', [], none) ∧ st'.isSbv = st.isSbv ∧
      st'.times = st.times ∧ st'.ts = st.ts := by
  intro lines
  induction lines with
  | nil => intro st _; exact ⟨st, by simp [runLines], rfl, rfl, rfl⟩
  | cons l ls ih =>
    intro st h
    have hl := h l (List.mem_cons_self _ _)
    obtain ⟨st', hrun, e1, e2, e3⟩ :
        ∃ st1, step st l = .ok (st1, []) ∧ st1.isSbv = st.isSbv ∧
          st1.times = st.times ∧ st1.ts = st.ts := by
      by_cases hh : (st.isHdr && startsHash l) = true
      · have hab : st.isHdr = true ∧ startsHash l = true := by simpa using hh
        exact ⟨st, step_header st l hab.1 hab.2, rfl, rfl, rfl⟩
      · have hh' : (st.isHdr && startsHash l) = false := by
          rcases hb : (st.isHdr && startsHash l) with _ | _
          · rfl
          · exact absurd hb hh
        rcases hsp : pySplitMax1 l with _ | ⟨tok, rest⟩
        · exact ⟨{ st with isHdr := false }, step_blank st l hh' hsp, rfl, rfl, rfl⟩
        · have hcond : (!rest.isEmpty || !headDigit tok) = true := by
            rcases hr : rest with _ | ⟨r, rs⟩
            · have : headDigit tok = false := by
                rw [metaShape, hsp, hr] at hl
                exact hl
              simp [this]
            · simp
          exact ⟨{ st with isHdr := false, captions := st.captions ++ [l] },
            step_text st l tok rest hh' hsp hcond, rfl, rfl, rfl⟩
    obtain ⟨st2, hrun2, f1, f2, f3⟩ := ih st' (fun x hx => h x (List.mem_cons_of_mem _ hx))
    refine ⟨st2, ?_, by rw [f1, e1], by rw [f2, e2], by rw [f3, e3]⟩
    rw [runLines_cons_ok _ _ _ _ _ hrun, hrun2]
    simp

/-- C9 amended: an input with no metadata line at all (empty, or only
header / blank / caption-text lines) completes WITHOUT error — the code has
no empty-input check; at most one record is emitted, and its timing line
carries no timestamps at all. -/
theorem c9_amended_no_meta_completes (lines : List String) (ts : Option ℚ)
    (h : ∀ l ∈ lines, metaShape l = false) :
    (adjustSbv lines ts).2 = none ∧ ∀ ev ∈ (adjustSbv lines ts).1, ev.times = [] := by
  obtain ⟨st', hrun, e1, e2, e3⟩ := runLines_noMeta lines (initState ts) h
  rcases hc : st'.captions with _ | ⟨c, cs⟩
  · have hfin : finish st' = .ok [] := finish_noCaptions st' hc
    have hA := adjustSbv_run_ok _ _ _ _ _ hrun hfin
    rw [hA]
    simp
  · have hcne : st'.captions ≠ [] := by rw [hc]; simp
    have hte : st'.times = [] := by rw [e2]; rfl
    have hfin : finish st' = .ok [{ times := st'.times, captions := st'.captions }] :=
      finish_other st' hcne (by rw [hte]; intro t; simp) (by rw [hte]; rfl)
    have hA := adjustSbv_run_ok _ _ _ _ _ hrun hfin
    rw [hA]
    refine ⟨rfl, ?_⟩
    intro ev hev
    simp at hev
    rw [hev, hte]

/-- C9 amended, witness: a header line plus a caption-text line completes
without error and emits only a timestamp-free record. -/
theorem c9_amended_no_meta_completes_witness :
    (adjustSbv ["# note", "hello world"] (some 3)).2 = none
    ∧ ∀ ev ∈ (adjustSbv ["# note", "hello world"] (some 3)).1, ev.times = [] :=
  c9_amended_no_meta_completes ["# note", "hello world"] (some 3) (by decide)

/-! ### Additional branch lemmas for the error paths -/

theorem metaStep_single_badFloat (st : AdjState) (ln : String) (t0 : ℚ)
    (hm : st.isSbv = some false) (ht : st.times = [t0])
    (hv : timestamp ln = none) :
    metaStep st ln = .error (.badFloat ln) := by
  simp [metaStep, hm, ht, hv]

theorem metaStep_first_err (st : AdjState) (ln : String) (e : AdjErr)
    (hm : st.isSbv = none) (hp : parseTimes (splitComma ln) = .error e) :
    metaStep st ln = .error e := by
  simp [metaStep, hm, hp]

theorem metaStep_first_nil (st : AdjState) (ln : String)
    (hm : st.isSbv = none) (ht : st.times = [])
    (hp : parseTimes (splitComma ln) = .ok []) :
    metaStep st ln = .error (.badFloat ln) := by
  simp [metaStep, hm, ht, hp]

theorem metaStep_dual_err (st : AdjState) (ln : String) (e : AdjErr)
    (hm : st.isSbv = some true) (hp : parseTimes (splitComma ln) = .error e) :
    metaStep st ln = .error e := by
  simp [metaStep, hm, hp]

theorem step_meta_emit_errNonneg (st st1 : AdjState) (ln tok : String)
    (tn : Option (List ℚ)) (e : AdjErr)
    (hh : (st.isHdr && startsHash ln) = false)
    (hs : pySplitMax1 ln = [tok]) (hd : headDigit tok = true)
    (hm : metaStep { st with isHdr := false } ln = .ok (st1, tn))
    (hc : st1.captions ≠ []) (hn : checkNonneg st1.times = .error e) :
    step st ln = .error e := by
  simp [step, hh, hs, hd, hm, hc, hn]

/-! ### Records and chaining lemmas -/

theorem recs_append (a b : List Event) : recs (a ++ b) = recs a ++ recs b :=
  List.filterMap_append a b recTimes

theorem chainedRecs_append_one : ∀ (rs : List (ℚ × ℚ)) (r : ℚ × ℚ),
    chainedRecs rs → (∀ p, rs.getLast? = some p → p.2 = r.1) →
    chainedRecs (rs ++ [r]) := by
  intro rs
  induction rs with
  | nil => intro r _ _; exact trivial
  | cons p rs ih =>
    intro r h1 h2
    rcases rs with _ | ⟨q, rs'⟩
    · exact ⟨h2 p (by simp), trivial⟩
    · obtain ⟨hpq, hrest⟩ := h1
      exact ⟨hpq, ih r hrest (fun x hx => h2 x (by rw [List.getLast?_cons_cons]; exact hx))⟩

/-! ### The Single-mode chaining invariant is preserved -/

theorem step_runInv (st st' : AdjState) (ln : String) (evs : List Event)
    (rs : List (ℚ × ℚ)) (hinv : RunInv st rs)
    (hstep : step st ln = .ok (st', evs)) :
    RunInv st' (rs ++ recs evs) := by
  classical
  -- lines that do not touch `times` / `isSbv` / the emitted records
  by_cases hh : (st.isHdr && startsHash ln) = true
  · have hab : st.isHdr = true ∧ startsHash ln = true := by simpa using hh
    rw [step_header st ln hab.1 hab.2] at hstep
    obtain ⟨h1, h2⟩ : st = st' ∧ [] = evs := by simpa using hstep
    subst h1; subst h2
    simpa [recs] using hinv
  have hh' : (st.isHdr && startsHash ln) = false := by
    rcases hb : (st.isHdr && startsHash ln) with _ | _
    · rfl
    · exact absurd hb hh
  rcases hsp : pySplitMax1 ln with _ | ⟨tok, rest⟩
  · rw [step_blank st ln hh' hsp] at hstep
    obtain ⟨h1, h2⟩ : { st with isHdr := false } = st' ∧ [] = evs := by simpa using hstep
    subst h1; subst h2
    simpa [recs, RunInv, SingleInv] using hinv
  by_cases hc : (!rest.isEmpty || !headDigit tok) = true
  · rw [step_text st ln tok rest hh' hsp hc] at hstep
    obtain ⟨h1, h2⟩ :
        { st with isHdr := false, captions := st.captions ++ [ln] } = st' ∧ [] = evs := by
      simpa using hstep
    subst h1; subst h2
    simpa [recs, RunInv, SingleInv] using hinv
  -- metadata line: one whitespace token starting with a digit
  have hrest : rest = [] ∧ headDigit tok = true := by
    rcases hr : rest with _ | ⟨r, rs'⟩ <;> rcases hD : headDigit tok with _ | _ <;>
      simp_all
  have hs1 : pySplitMax1 ln = [tok] := by rw [hsp, hrest.1]
  rcases hinv with ⟨hn, ht0, hr0⟩ | ⟨hmode, hS⟩ | hmode
  · -- encoding not yet determined
    subst hr0
    rcases hp : parseTimes (splitComma ln) with e | tn
    · rw [step_meta_err st ln tok e hh' hs1 hrest.2
        (metaStep_first_err _ _ e hn hp)] at hstep
      simp at hstep
    rcases tn with _ | ⟨v, vs⟩
    · rw [step_meta_err st ln tok _ hh' hs1 hrest.2
        (metaStep_first_nil _ _ hn ht0 hp)] at hstep
      simp at hstep
    by_cases hlen : vs.length = 1
    · -- two fields: Dual
      rcases vs with _ | ⟨w, ws⟩
      · simp at hlen
      rcases ws with _ | ⟨w2, ws2⟩
      · have hm := metaStep_first_dual { st with isHdr := false } ln v w (by simpa using hn)
          (by simpa using ht0) hp
        by_cases hcap : st.captions = []
        · rw [step_meta_noemit st _ ln tok _ hh' hs1 hrest.2 hm (by simpa using hcap)] at hstep
          obtain ⟨h1, h2⟩ :
            (⟨false, some true, updTs st.ts v, [], st.captions⟩ : AdjState) = st'
              ∧ [] = evs := by simpa using hstep
          subst h1; subst h2
          right; right; rfl
        · rw [step_meta_emit_dual st _ ln tok [v, w] hh' hs1 hrest.2 hm
            (by simpa using hcap) rfl rfl] at hstep
          obtain ⟨h1, h2⟩ :
            (⟨false, some true, updTs st.ts v, [v, w], []⟩ : AdjState) = st'
              ∧ [({ times := [], captions := st.captions } : Event)] = evs := by
            simpa using hstep
          subst h1; subst h2
          right; right; rfl
      · simp only [List.length_cons] at hlen
        omega
    · -- one field (or three or more): Single
      have hm := metaStep_first_single { st with isHdr := false } ln v vs
        (by simpa using hn) (by simpa using ht0) hp hlen
      by_cases hcap : st.captions = []
      · rw [step_meta_noemit st _ ln tok _ hh' hs1 hrest.2 hm (by simpa using hcap)] at hstep
        obtain ⟨h1, h2⟩ :
          (⟨false, some false, updTs st.ts v, [v - (updTs st.ts v).getD 0],
            st.captions⟩ : AdjState) = st' ∧ [] = evs := by simpa using hstep
        subst h1; subst h2
        refine Or.inr (Or.inl ⟨rfl, trivial, ?_, ?_⟩)
        · intro h; exact absurd h (by simp)
        · intro x l p hx hl
          simp [recs] at hl
      · rcases hnn : checkNonneg ([v - (updTs st.ts v).getD 0] : List ℚ) with e | u
        · rw [step_meta_emit_errNonneg st _ ln tok _ e hh' hs1 hrest.2 hm
            (by simpa using hcap) hnn] at hstep
          simp at hstep
        · rw [step_meta_emit_pop st _ ln tok _ hh' hs1 hrest.2 hm
            (by simpa using hcap) rfl (by rcases u; exact hnn)] at hstep
          obtain ⟨h1, h2⟩ :
            (⟨false, some false, updTs st.ts v, [], []⟩ : AdjState) = st' ∧
            [({ times := [v - (updTs st.ts v).getD 0],
                captions := st.captions } : Event)] = evs := by simpa using hstep
          subst h1; subst h2
          refine Or.inr (Or.inl ⟨rfl, ?_, ?_, ?_⟩)
          · simp [recs, recTimes, chainedRecs]
          · intro _
            simp [recs, recTimes]
          · intro x l p hx hl
            simp [recs, recTimes] at hl
  · -- Single mode
    obtain ⟨hch, hte, hlast⟩ := hS
    rcases htm : st.times with _ | ⟨t0, tl⟩
    · -- empty pending list: the assertion fails, contradiction
      rw [step_meta_err st ln tok _ hh' hs1 hrest.2
        (metaStep_single_assert _ _ (by simpa using hmode) (by simp [htm]))] at hstep
      simp at hstep
    rcases tl with _ | ⟨t1, tl'⟩
    · -- pending [t0]
      rcases hv : timestamp ln with _ | v
      · rw [step_meta_err st ln tok _ hh' hs1 hrest.2
          (metaStep_single_badFloat _ _ t0 (by simpa using hmode) (by simpa using htm) hv)]
          at hstep
        simp at hstep
      have hm := metaStep_single { st with isHdr := false } ln t0 v
        (by simpa using hmode) (by simpa using htm) hv
      by_cases hcap : st.captions = []
      · rw [step_meta_noemit st _ ln tok _ hh' hs1 hrest.2 hm (by simpa using hcap)] at hstep
        obtain ⟨h1, h2⟩ :
          ({ st with isHdr := false, times := [t0, v - st.ts.getD 0] } : AdjState) = st' ∧
          [] = evs := by simpa using hstep
        subst h1; subst h2
        refine Or.inr (Or.inl ⟨hmode, by simpa [recs] using hch, ?_, ?_⟩)
        · intro h; exact absurd h (by simp)
        · intro x l p hx hl
          obtain ⟨hx0, _⟩ : t0 = x ∧ [v - st.ts.getD 0] = l := by simpa using hx
          rw [← hx0]
          exact hlast t0 [] p htm (by simpa [recs] using hl)
      · rcases hnn : checkNonneg ([t0, v - st.ts.getD 0] : List ℚ) with e | u
        · rw [step_meta_emit_errNonneg st _ ln tok _ e hh' hs1 hrest.2 hm
            (by simpa using hcap) hnn] at hstep
          simp at hstep
        · rw [step_meta_emit_pop st _ ln tok _ hh' hs1 hrest.2 hm
            (by simpa using hcap) (by simpa using hmode) (by rcases u; exact hnn)] at hstep
          obtain ⟨h1, h2⟩ :
            (⟨false, st.isSbv, st.ts, [v - st.ts.getD 0], []⟩ : AdjState) = st' ∧
            [({ times := [t0, v - st.ts.getD 0], captions := st.captions } : Event)] = evs := by
            simpa using hstep
          subst h1; subst h2
          have hrec :
              recs [({ times := [t0, v - st.ts.getD 0], captions := st.captions } : Event)]
                = [(t0, v - st.ts.getD 0)] := by
            simp [recs, recTimes]
          refine Or.inr (Or.inl ⟨hmode, ?_, ?_, ?_⟩)
          · rw [hrec]
            exact chainedRecs_append_one rs _ hch
              (fun p hp => hlast t0 [] p htm hp)
          · intro h; exact absurd h (by simp)
          · intro x l p hx hl
            obtain ⟨hx0, _⟩ : v - st.ts.getD 0 = x ∧ [] = l := by simpa using hx
            rw [hrec, List.getLast?_concat] at hl
            obtain rfl : (t0, v - st.ts.getD 0) = p := by simpa using hl
            exact hx0
    · -- pending list of length ≥ 2: the assertion fails, contradiction
      rw [step_meta_err st ln tok _ hh' hs1 hrest.2
        (metaStep_single_assert _ _ (by simpa using hmode) (by simp [htm]))] at hstep
      simp at hstep
  · -- Dual mode is preserved whatever happens on a metadata line
    rcases hp : parseTimes (splitComma ln) with e | tn
    · rw [step_meta_err st ln tok e hh' hs1 hrest.2
        (metaStep_dual_err _ _ e hmode hp)] at hstep
      simp at hstep
    by_cases hlen : st.times.length = 2
    · have hm := metaStep_dual { st with isHdr := false } ln tn (by simpa using hmode)
        (by simpa using hlen) hp
      by_cases hcap : st.captions = []
      · rw [step_meta_noemit st _ ln tok _ hh' hs1 hrest.2 hm (by simpa using hcap)] at hstep
        obtain ⟨h1, h2⟩ :
          ({ st with isHdr := false, times := adjTimes st.ts st.times } : AdjState) = st' ∧
          [] = evs := by simpa using hstep
        subst h1; subst h2
        right; right; exact hmode
      · rcases hnn : checkNonneg (adjTimes st.ts st.times) with e | u
        · rw [step_meta_emit_errNonneg st _ ln tok _ e hh' hs1 hrest.2 hm
            (by simpa using hcap) hnn] at hstep
          simp at hstep
        · rw [step_meta_emit_dual st _ ln tok tn hh' hs1 hrest.2 hm
            (by simpa using hcap) (by simpa using hmode) (by rcases u; exact hnn)] at hstep
          obtain ⟨h1, h2⟩ :
            ({ st with isHdr := false, times := tn, captions := [] } : AdjState) = st' ∧
            [({ times := adjTimes st.ts st.times, captions := st.captions } : Event)] = evs := by simpa using hstep
          subst h1; subst h2
          right; right; exact hmode
    · rw [step_meta_err st ln tok _ hh' hs1 hrest.2
        (metaStep_dual_assert _ _ tn (by simpa using hmode) (by simpa using hlen) hp)]
        at hstep
      simp at hstep

theorem adjustSbv_fin_err (lines : List String) (ts : Option ℚ) (st : AdjState)
    (evs : List Event) (e : AdjErr)
    (hrun : runLines (initState ts) lines = (st, evs, none))
    (hfin : finish st = .error e) :
    adjustSbv lines ts = (evs, some e) := by
  simp [adjustSbv, hrun, hfin]

theorem finish_err (st : AdjState) (e : AdjErr) (hc : st.captions ≠ [])
    (hn : checkNonneg (match st.times with | [t] => [t, t + 5] | ts => ts) = .error e) :
    finish st = .error e := by
  simp [finish, hc, hn]

theorem runLines_runInv : ∀ (lines : List String) (st : AdjState) (rs : List (ℚ × ℚ)),
    RunInv st rs →
    RunInv (runLines st lines).1 (rs ++ recs (runLines st lines).2.1) := by
  intro lines
  induction lines with
  | nil => intro st rs h; simpa [runLines, recs] using h
  | cons ln rest ih =>
    intro st rs h
    rcases hstep : step st ln with e | ⟨st1, evs⟩
    · rw [runLines_cons_err _ _ _ _ hstep]
      simpa [recs] using h
    · rw [runLines_cons_ok _ _ _ _ _ hstep]
      have h2 := ih st1 (rs ++ recs evs) (step_runInv st st1 ln evs rs h hstep)
      simpa [recs_append, List.append_assoc] using h2

theorem finish_single_chain (st : AdjState) (rs : List (ℚ × ℚ)) (evs2 : List Event)
    (hS : SingleInv st rs) (hfin : finish st = .ok evs2) :
    chainedRecs (rs ++ recs evs2) := by
  obtain ⟨hch, hte, hlast⟩ := hS
  by_cases hc : st.captions.isEmpty
  · rw [finish_noCaptions st (by simpa using hc)] at hfin
    obtain rfl : [] = evs2 := by simpa using hfin
    simpa [recs] using hch
  · have hcne : st.captions ≠ [] := by simpa using hc
    rcases htm : st.times with _ | ⟨a, tl⟩
    · rw [finish_other st hcne (by rw [htm]; intro t; simp) (by rw [htm]; rfl)] at hfin
      obtain rfl : [({ times := st.times, captions := st.captions } : Event)] = evs2 := by
        simpa using hfin
      simpa [recs, recTimes, htm] using hch
    rcases tl with _ | ⟨b, tl'⟩
    · rcases hnn : checkNonneg ([a, a + 5] : List ℚ) with e | u
      · rw [finish_err st e hcne (by rw [htm]; exact hnn)] at hfin
        simp at hfin
      · rw [finish_synth st a hcne htm (by rcases u; exact hnn)] at hfin
        obtain rfl : [({ times := [a, a + 5], captions := st.captions } : Event)] = evs2 := by
          simpa using hfin
        have hr : recs [({ times := [a, a + 5], captions := st.captions } : Event)]
            = [(a, a + 5)] := by simp [recs, recTimes]
        rw [hr]
        exact chainedRecs_append_one rs _ hch (fun p hp => hlast a [] p htm hp)
    rcases tl' with _ | ⟨c, tl''⟩
    · rcases hnn : checkNonneg ([a, b] : List ℚ) with e | u
      · rw [finish_err st e hcne (by rw [htm]; exact hnn)] at hfin
        simp at hfin
      · rw [finish_pair st a b hcne htm (by rcases u; exact hnn)] at hfin
        obtain rfl : [({ times := [a, b], captions := st.captions } : Event)] = evs2 := by
          simpa using hfin
        have hr : recs [({ times := [a, b], captions := st.captions } : Event)]
            = [(a, b)] := by simp [recs, recTimes]
        rw [hr]
        exact chainedRecs_append_one rs _ hch (fun p hp => hlast a [b] p htm hp)
    · rcases hnn : checkNonneg (a :: b :: c :: tl'') with e | u
      · rw [finish_err st e hcne (by rw [htm]; exact hnn)] at hfin
        simp at hfin
      · rw [finish_other st hcne (by rw [htm]; intro t; simp) (by rw [htm]; rcases u; exact hnn)]
          at hfin
        obtain rfl : [({ times := st.times, captions := st.captions } : Event)] = evs2 := by
          simpa using hfin
        simpa [recs, recTimes, htm] using hch

/-! ### Claim C4 -/

/-- C4: Single-encoding chaining invariant — for every input processed under
Single encoding, among the emitted caption records (events whose timing line
carries exactly a start and an end), each record's end equals the next
record's start. This holds for the records emitted before any failure and
for the finalization record. -/
theorem c4_single_chaining (lines : List String) (ts : Option ℚ)
    (hmode : (runLines (initState ts) lines).1.isSbv = some false) :
    chainedRecs (recs (adjustSbv lines ts).1) := by
  have hinv := runLines_runInv lines (initState ts) [] (Or.inl ⟨rfl, rfl, rfl⟩)
  rcases hrun : runLines (initState ts) lines with ⟨st, evs, err⟩
  rw [hrun] at hinv hmode
  have hmode' : st.isSbv = some false := hmode
  have hinv' : RunInv st (recs evs) := by simpa using hinv
  have hS : SingleInv st (recs evs) := by
    rcases hinv' with ⟨hn, _, _⟩ | ⟨_, hS⟩ | hdual
    · rw [hmode'] at hn; cases hn
    · exact hS
    · rw [hmode'] at hdual; simp at hdual
  rcases err with _ | e
  · rcases hfin : finish st with e2 | evs2
    · rw [adjustSbv_fin_err _ _ _ _ _ hrun hfin]
      exact hS.1
    · rw [adjustSbv_run_ok _ _ _ _ _ hrun hfin, recs_append]
      exact finish_single_chain st (recs evs) evs2 hS hfin
  · rw [adjustSbv_run_err _ _ _ _ _ hrun]
    exact hS.1

/-- C4 witness: the Single run `0:01 / A / 0:00:04 / B` (records
`(1, 4, [A])` then `(4, 9, [B])`) satisfies the chaining invariant. -/
theorem c4_single_chaining_witness :
    chainedRecs (recs (adjustSbv ["0:01", "A", "0:00:04", "B"] none).1) := by
  have s1 : step (initState none) "0:01"
      = .ok (⟨false, some false, none, [(1 : ℚ) - 0], []⟩, []) :=
    step_meta_noemit (initState none) _ _ "0:01" (some [1])
      (by decide) (by decide) (by decide)
      (metaStep_first_single _ _ 1 [] rfl rfl pt_s001 (by decide)) rfl
  have s2 : step (⟨false, some false, none, [(1 : ℚ) - 0], []⟩ : AdjState) "A"
      = .ok (⟨false, some false, none, [(1 : ℚ) - 0], ["A"]⟩, []) :=
    step_text _ "A" "A" [] (by decide) (by decide) (by decide)
  have s3 : step (⟨false, some false, none, [(1 : ℚ) - 0], ["A"]⟩ : AdjState) "0:00:04"
      = .ok (⟨false, some false, none, [(4 : ℚ) - 0], []⟩,
             [{ times := [(1 : ℚ) - 0, (4 : ℚ) - 0], captions := ["A"] }]) :=
    step_meta_emit_pop _ _ _ "0:00:04" none (by decide) (by decide) (by decide)
      (metaStep_single _ _ ((1 : ℚ) - 0) 4 rfl rfl tsv_04) (by simp) rfl
      (checkNonneg_ok _ (by intro t ht; simp at ht; rcases ht with rfl | rfl <;> norm_num))
  have s4 : step (⟨false, some false, none, [(4 : ℚ) - 0], []⟩ : AdjState) "B"
      = .ok (⟨false, some false, none, [(4 : ℚ) - 0], ["B"]⟩, []) :=
    step_text _ "B" "B" [] (by decide) (by decide) (by decide)
  have run : runLines (initState none) ["0:01", "A", "0:00:04", "B"]
      = (⟨false, some false, none, [(4 : ℚ) - 0], ["B"]⟩,
         [{ times := [(1 : ℚ) - 0, (4 : ℚ) - 0], captions := ["A"] }], none) := by
    rw [runLines_cons_ok _ _ _ _ _ s1, runLines_cons_ok _ _ _ _ _ s2,
        runLines_cons_ok _ _ _ _ _ s3, runLines_cons_ok _ _ _ _ _ s4]
    simp [runLines]
  exact c4_single_chaining ["0:01", "A", "0:00:04", "B"] none (by rw [run])

/-! ### Claim C10 -/

/-- C10: caption-text lines preceding the first metadata line, when that
line is Dual-encoded: no error is raised; the emission writes a timing line
built from the still-empty pending list (an event carrying NO timestamps),
followed by the buffered text, and only then is the parsed pair `[a, b]`
(raw, not offset-adjusted) adopted as the pending boundary. -/
theorem c10_text_before_first_dual_meta (ts : Option ℚ) (pre : List String)
    (mln tok : String) (a b : ℚ)
    (hpre : pre ≠ [])
    (hht : ∀ l ∈ pre, startsHash l = false ∧ textShape l = true)
    (hs : pySplitMax1 mln = [tok]) (hd : headDigit tok = true)
    (hp : parseTimes (splitComma mln) = .ok [a, b]) :
    runLines (initState ts) (pre ++ [mln])
      = (⟨false, some true, updTs ts a, [a, b], []⟩,
         [{ times := [], captions := pre }], none) := by
  rcases pre with _ | ⟨p, pre'⟩
  · exact absurd rfl hpre
  have hp0 := hht p (List.mem_cons_self _ _)
  have hcond : textShape p = true := hp0.2
  rcases hsp : pySplitMax1 p with _ | ⟨tk, rest⟩
  · rw [textShape, hsp] at hcond
    exact absurd hcond (by simp)
  have hcnd : (!rest.isEmpty || !headDigit tk) = true := by
    rw [textShape, hsp] at hcond; exact hcond
  have s1 : step (initState ts) p = .ok (⟨false, none, ts, [], [p]⟩, []) :=
    step_text _ p tk rest (by simp [initState, hp0.1]) hsp hcnd
  have s2 : runLines (⟨false, none, ts, [], [p]⟩ : AdjState) pre'
      = (⟨false, none, ts, [], p :: pre'⟩, [], none) := by
    have h := runLines_textPrefix pre' ⟨false, none, ts, [], [p]⟩ rfl
      (fun x hx => (hht x (List.mem_cons_of_mem _ hx)).2)
    simpa using h
  have hm : metaStep (⟨false, none, ts, [], p :: pre'⟩ : AdjState) mln
      = .ok ((⟨false, some true, updTs ts a, [], p :: pre'⟩ : AdjState), some [a, b]) :=
    metaStep_first_dual _ _ a b rfl rfl hp
  have s3 : step (⟨false, none, ts, [], p :: pre'⟩ : AdjState) mln
      = .ok (⟨false, some true, updTs ts a, [a, b], []⟩,
             [{ times := [], captions := p :: pre' }]) :=
    step_meta_emit_dual _ _ _ tok [a, b] (by rfl) hs hd hm (by simp) (by rfl) (by rfl)
  rw [show (p :: pre') ++ [mln] = p :: (pre' ++ [mln]) from rfl,
      runLines_cons_ok _ _ _ _ _ s1, runLines_append _ pre' [mln], s2]
  simp only []
  rw [runLines_cons_ok _ _ _ _ _ s3]
  simp [runLines]

/-- C10 witness: one caption line `X` before the Dual metadata line
`0:00:10,0:00:12` with target start time 0. -/
theorem c10_text_before_first_dual_meta_witness :
    runLines (initState (some 0)) (["X"] ++ ["0:00:10,0:00:12"])
      = (⟨false, some true, updTs (some 0) 10, [10, 12], []⟩,
         [{ times := [], captions := ["X"] }], none) :=
  c10_text_before_first_dual_meta (some 0) ["X"] "0:00:10,0:00:12" "0:00:10,0:00:12"
    10 12 (by decide) (by decide) (by decide) (by decide) pt_dualShort

end T2S
